import Mathlib

/-!
Verification development for the progress/scoring engine of the learning
backend (`packages/backend/src/services/progress.ts`).

The persistent store is modelled as lists of rows (one list per Prisma
model), timestamps as abstract `Nat` instants, and JavaScript numbers as
rationals.  Prisma's `findUnique` becomes `List.find?` on the unique key,
`update` becomes an in-place replacement of the key-matching row, and
`create` appends.  Each service function is translated into a pure state
transformer on the store.
-/

/-- JavaScript `Math.round`: rounds half toward positive infinity. -/
def jsRound (x : Rat) : Int := ⌊x + 1 / 2⌋

/-- `Math.min(Math.max(x, 0), 100)` as used for percentage and score inputs. -/
def clampPct (x : Rat) : Rat := min (max x 0) 100

/-- One `user_progress` row (`UserProgress` model): per-(user, unit) record. -/
structure UserProgress where
  userId : String
  unitId : String
  completed : Bool
  score : Int
  startedAt : Option Nat
  completedAt : Option Nat
deriving DecidableEq, Repr

/-- One `unit_asset_progress` row (`UnitAssetProgress` model): per-(user, asset). -/
structure UnitAssetProgress where
  userId : String
  unitId : String
  assetId : String
  progressPercentage : Rat
  secondsWatched : Int
  durationSeconds : Option Int
  completed : Bool
  completedAt : Option Nat
deriving DecidableEq, Repr

/-- One `pronunciation_attempts` row: append-only. -/
structure PronunciationAttempt where
  userId : String
  unitId : String
  audioKey : String
  score : Rat
  feedback : Option String
  createdAt : Nat
deriving DecidableEq, Repr

/-- One `daily_plan_entries` row; `planUserId` is the owning plan's `userId`
(the code reaches it through the `dailyPlan` relation). -/
structure DailyPlanEntry where
  id : Nat
  planUserId : String
  unitId : String
  completed : Bool
  score : Int
deriving DecidableEq, Repr

/-- The mutable progress store: the four tables the service writes or reads. -/
structure Store where
  userProgress : List UserProgress
  unitAssetProgress : List UnitAssetProgress
  pronunciationAttempts : List PronunciationAttempt
  dailyPlanEntries : List DailyPlanEntry
deriving DecidableEq, Repr

/-- A `unit_assets` catalog row as read by the service (id and expected duration). -/
structure UnitAsset where
  id : String
  duration : Option Int
deriving DecidableEq, Repr

/-- A catalog unit joined with its story and level metadata, as returned by
`unit.findMany({ include: { story: { include: { level } } } })`. -/
structure CatalogUnit where
  id : String
  title : String
  storyId : String
  storyTitle : String
  levelName : String
deriving DecidableEq, Repr

/-- The read-only curriculum catalog collaborator.  `unitAssets u` models
`unitAsset.findMany({ where: { unitId: u } })`; `storyUnits s` models
`unit.findMany({ where: { storyId: s }, orderBy: { order: asc } })`, i.e. the
story's units in catalog order. -/
structure Catalog where
  unitAssets : String → List UnitAsset
  storyUnits : String → List CatalogUnit

/-- `userProgress.findUnique({ where: { userId_unitId } })`. -/
def findUserProgress (s : Store) (userId unitId : String) : Option UserProgress :=
  s.userProgress.find? (fun r => r.userId == userId && r.unitId == unitId)

/-- `unitAssetProgress.findUnique({ where: { userId_assetId } })`. -/
def findAssetProgress (s : Store) (userId assetId : String) : Option UnitAssetProgress :=
  s.unitAssetProgress.find? (fun r => r.userId == userId && r.assetId == assetId)

/-- `unitAssetProgress.findMany({ where: { userId, unitId } })`. -/
def assetProgressFor (s : Store) (userId unitId : String) : List UnitAssetProgress :=
  s.unitAssetProgress.filter (fun r => r.userId == userId && r.unitId == unitId)

/-- `pronunciationAttempt.findMany({ where: { userId, unitId } })`. -/
def attemptsFor (s : Store) (userId unitId : String) : List PronunciationAttempt :=
  s.pronunciationAttempts.filter (fun r => r.userId == userId && r.unitId == unitId)

/-- `dailyPlanEntry.findMany({ where: { unitId, dailyPlan: { userId } } })`. -/
def planEntriesFor (s : Store) (userId unitId : String) : List DailyPlanEntry :=
  s.dailyPlanEntries.filter (fun e => e.unitId == unitId && e.planUserId == userId)

/-- `userProgress.update({ where: { userId_unitId }, data })`: replaces the
key-matching row by the updated row. -/
def updateUserProgressRow (s : Store) (userId unitId : String) (row : UserProgress) : Store :=
  { s with userProgress :=
      s.userProgress.map (fun r => if r.userId == userId && r.unitId == unitId then row else r) }

/-- `unitAssetProgress.update({ where: { userId_assetId }, data })`. -/
def updateAssetProgressRow (s : Store) (userId assetId : String) (row : UnitAssetProgress) : Store :=
  { s with unitAssetProgress :=
      s.unitAssetProgress.map (fun r => if r.userId == userId && r.assetId == assetId then row else r) }

/-- `startUnit(userId, unitId)` (progress.ts:16): create the row with
`startedAt = now` if absent, set `startedAt` if unset, otherwise return the
existing record unchanged.  Returns the new store and the resulting row. -/
def startUnit (now : Nat) (userId unitId : String) (s : Store) : Store × UserProgress :=
  match findUserProgress s userId unitId with
  | some existing =>
    match existing.startedAt with
    | none =>
      let updated := { existing with startedAt := some now }
      (updateUserProgressRow s userId unitId updated, updated)
    | some _ => (s, existing)
  | none =>
    let created : UserProgress :=
      { userId := userId, unitId := unitId, completed := false, score := 0,
        startedAt := some now, completedAt := none }
    ({ s with userProgress := s.userProgress ++ [created] }, created)

/-- The input record of `updateAssetProgress` (raw, unsanitized numbers). -/
structure AssetUpdateInput where
  secondsWatched : Rat
  progressPercentage : Rat
  durationSeconds : Option Rat
  completed : Option Bool
deriving DecidableEq, Repr

/-- The sanitized `secondsWatched` of `updateAssetProgress` (progress.ts:64). -/
def sanitizedSeconds (d : AssetUpdateInput) : Int := max 0 ⌊d.secondsWatched⌋

/-- The clamped `progressPercentage` of `updateAssetProgress` (progress.ts:65). -/
def sanitizedPct (d : AssetUpdateInput) : Rat := min (max d.progressPercentage 0) 100

/-- The sanitized optional `durationSeconds` of `updateAssetProgress`
(progress.ts:66). -/
def sanitizedDuration (d : AssetUpdateInput) : Option Int :=
  d.durationSeconds.map (fun v => max 0 ⌊v⌋)

/-- `isCompleted` of `updateAssetProgress` (progress.ts:67): the override if
given, otherwise clamped percentage at least 90. -/
def isCompletedFlag (d : AssetUpdateInput) : Bool :=
  d.completed.getD (decide (90 ≤ sanitizedPct d))

/-- The row written by `updateAssetProgress` over an existing row
(progress.ts:76): `durationSeconds` is kept when the input omitted it, and an
already-set `completedAt` is preserved. -/
def assetUpdatedRow (now : Nat) (d : AssetUpdateInput)
    (existing : UnitAssetProgress) : UnitAssetProgress :=
  { existing with
    secondsWatched := sanitizedSeconds d
    progressPercentage := sanitizedPct d
    durationSeconds := match sanitizedDuration d with
      | some v => some v
      | none => existing.durationSeconds
    completed := isCompletedFlag d
    completedAt :=
      if isCompletedFlag d then some (existing.completedAt.getD now) else existing.completedAt }

/-- The row created by `updateAssetProgress` when none exists (progress.ts:88). -/
def assetCreatedRow (now : Nat) (userId unitId assetId : String)
    (d : AssetUpdateInput) : UnitAssetProgress :=
  { userId := userId, unitId := unitId, assetId := assetId,
    progressPercentage := sanitizedPct d,
    secondsWatched := sanitizedSeconds d,
    durationSeconds := sanitizedDuration d,
    completed := isCompletedFlag d,
    completedAt := if isCompletedFlag d then some now else none }

/-- `updateAssetProgress(userId, unitId, assetId, data)` (progress.ts:50):
implicitly starts the unit, sanitizes the inputs, recomputes `completed`,
and upserts the per-(user, asset) row, preserving an already-set
`completedAt`. -/
def updateAssetProgress (now : Nat) (userId unitId assetId : String)
    (d : AssetUpdateInput) (s : Store) : Store × UnitAssetProgress :=
  let s1 := (startUnit now userId unitId s).1
  match findAssetProgress s1 userId assetId with
  | some existing =>
    (updateAssetProgressRow s1 userId assetId (assetUpdatedRow now d existing),
      assetUpdatedRow now d existing)
  | none =>
    ({ s1 with unitAssetProgress :=
        s1.unitAssetProgress ++ [assetCreatedRow now userId unitId assetId d] },
      assetCreatedRow now userId unitId assetId d)

/-- The `progressMap` of `calculateUnitScore` (progress.ts:162): a map built by
inserting the clamped `progressPercentage` of each fetched row in order
(later rows overwrite earlier ones), then queried by asset id. -/
def progressMapGet (rows : List UnitAssetProgress) (assetId : String) : Option Rat :=
  rows.foldl
    (fun m row => fun k => if k == row.assetId then some (clampPct row.progressPercentage) else m k)
    (fun _ => none) assetId

/-- The `components` list of `calculateUnitScore` (progress.ts:159): the asset
component (pushed when the unit has at least one catalog asset) followed by
the pronunciation component (pushed when at least one attempt exists). -/
def unitScoreComponents (cat : Catalog) (userId unitId : String) (s : Store) : List Rat :=
  let assets := cat.unitAssets unitId
  let assetProgress := assetProgressFor s userId unitId
  let attempts := attemptsFor s userId unitId
  (if 0 < assets.length then
    let totalAssetScore := (assets.map (fun a => (progressMapGet assetProgress a.id).getD 0)).sum
    let assetScore := if 0 < assets.length then totalAssetScore / (assets.length : Rat) else 0
    [assetScore]
  else []) ++
  (if 0 < attempts.length then
    let totalPronScore := (attempts.map (fun a => a.score)).sum
    [totalPronScore / (attempts.length : Rat)]
  else [])

/-- `calculateUnitScore(userId, unitId)` (progress.ts:151): the rounded average
of the components that are present, `0` if none is. -/
def calculateUnitScore (cat : Catalog) (userId unitId : String) (s : Store) : Int :=
  if (unitScoreComponents cat userId unitId s).length = 0 then 0
  else jsRound ((unitScoreComponents cat userId unitId s).sum /
    ((unitScoreComponents cat userId unitId s).length : Rat))

/-- One iteration of the asset force-fill loop of `completeUnit`
(progress.ts:205): ensure the asset's progress row exists, is at 100% and is
marked completed, preserving an already-set `completedAt`. -/
def forceCompleteAsset (now : Nat) (userId unitId : String)
    (s : Store) (asset : UnitAsset) : Store :=
  match findAssetProgress s userId asset.id with
  | some existingProgress =>
    let secondsWatched : Int := existingProgress.secondsWatched
    let durationSeconds : Option Int := existingProgress.durationSeconds <|> asset.duration
    if ¬existingProgress.completed ∨ existingProgress.progressPercentage < 100 ∨
        existingProgress.completedAt = none then
      let updated : UnitAssetProgress := { existingProgress with
        completed := true
        progressPercentage := 100
        secondsWatched := secondsWatched
        durationSeconds := match durationSeconds with
          | some v => some v
          | none => existingProgress.durationSeconds
        completedAt := some (existingProgress.completedAt.getD now) }
      updateAssetProgressRow s userId asset.id updated
    else s
  | none =>
    let created : UnitAssetProgress :=
      { userId := userId, unitId := unitId, assetId := asset.id,
        progressPercentage := 100,
        secondsWatched := asset.duration.getD 0,
        durationSeconds := asset.duration,
        completed := true,
        completedAt := some now }
    { s with unitAssetProgress := s.unitAssetProgress ++ [created] }

/-- One iteration of the daily-plan synchronization loop of `completeUnit`
(progress.ts:268): entries that are not completed or carry a different score
are updated (by id) to `completed = true` and the determined score. -/
def syncPlanEntryStep (score : Int) (s : Store) (entry : DailyPlanEntry) : Store :=
  if ¬entry.completed ∨ entry.score ≠ score then
    { s with dailyPlanEntries :=
        s.dailyPlanEntries.map (fun r =>
          if r.id == entry.id then { r with completed := true, score := score } else r) }
  else s

/-- `completeUnit(userId, unitId, finalScore?)` (progress.ts:196): starts the
unit, force-completes every catalog asset, determines the score (override if
supplied, otherwise `calculateUnitScore`), clamps and rounds it, persists the
`UserProgress` row as completed with `completedAt = now`, then synchronizes
the daily-plan entries.  Returns `none` when the `userProgress.update` has no
row to address (unreachable after `startUnit`, where Prisma would throw). -/
def completeUnit (now : Nat) (cat : Catalog) (userId unitId : String)
    (finalScore : Option Rat) (s : Store) : Option (Store × UserProgress × Bool) :=
  let s1 := (startUnit now userId unitId s).1
  let assets := cat.unitAssets unitId
  let s2 := assets.foldl (forceCompleteAsset now userId unitId) s1
  let score0 : Rat := match finalScore with
    | some v => v
    | none => ((calculateUnitScore cat userId unitId s2 : Int) : Rat)
  let score : Int := jsRound (min (max score0 0) 100)
  match findUserProgress s2 userId unitId with
  | none => none
  | some row =>
    let progress : UserProgress := { row with
      completed := true, completedAt := some now, score := score }
    let s3 := updateUserProgressRow s2 userId unitId progress
    let dailyPlanEntries := planEntriesFor s3 userId unitId
    let s4 := dailyPlanEntries.foldl (syncPlanEntryStep score) s3
    some (s4, progress, decide (0 < dailyPlanEntries.length))

/-- The per-unit record assembled by `getStoryProgress` (progress.ts:475). -/
structure StoryUnitView where
  unitId : String
  unitTitle : String
  storyId : String
  storyTitle : String
  completed : Bool
  score : Int
  startedAt : Option Nat
  completedAt : Option Nat
  pronunciationAttempts : Nat
  averagePronunciationScore : Rat
deriving DecidableEq, Repr

/-- The result record of `getStoryProgress` (progress.ts:498). -/
structure StoryProgressResult where
  storyId : String
  storyTitle : String
  levelName : String
  totalUnits : Nat
  completedUnits : Nat
  averageScore : Int
  units : List StoryUnitView
deriving DecidableEq, Repr

/-- The message of the error thrown when the story has no units (progress.ts:455). -/
def storyNotFoundMsg : String := "Story not found or has no units"

/-- The prefixed message of the wrapping catch block of `getStoryProgress`
(progress.ts:509). -/
def storyProgressFailureMsg : String := "Failed to get story progress: "

/-- The per-unit body of `getStoryProgress` (progress.ts:463): an absent
`UserProgress` row yields false/zero/null defaults. -/
def buildStoryUnitView (s : Store) (userId storyTitle : String)
    (unit : CatalogUnit) : StoryUnitView :=
  let progress := findUserProgress s userId unit.id
  let attempts := attemptsFor s userId unit.id
  let averagePronunciationScore : Rat :=
    if 0 < attempts.length then (attempts.map (fun a => a.score)).sum / (attempts.length : Rat)
    else 0
  { unitId := unit.id
    unitTitle := unit.title
    storyId := unit.storyId
    storyTitle := storyTitle
    completed := match progress with | some p => p.completed | none => false
    score := match progress with | some p => p.score | none => 0
    startedAt := match progress with | some p => p.startedAt | none => none
    completedAt := match progress with | some p => p.completedAt | none => none
    pronunciationAttempts := attempts.length
    averagePronunciationScore := averagePronunciationScore }

/-- The body of `getStoryProgress` before the wrapping catch (progress.ts:440):
throws when the story has zero catalog units, otherwise builds one record per
catalog unit in catalog order. -/
def getStoryProgressBody (cat : Catalog) (userId storyId : String)
    (s : Store) : Except String StoryProgressResult :=
  let units := cat.storyUnits storyId
  match units with
  | [] => .error storyNotFoundMsg
  | u0 :: _ =>
    let storyTitle := u0.storyTitle
    let levelName := u0.levelName
    let unitsWithProgress := units.map (buildStoryUnitView s userId storyTitle)
    let completedWithScores := unitsWithProgress.filter (fun u => u.completed)
    let averageScore : Int :=
      if 0 < completedWithScores.length then
        jsRound ((completedWithScores.map (fun u => (u.score : Rat))).sum /
          (completedWithScores.length : Rat))
      else 0
    .ok { storyId := storyId
          storyTitle := storyTitle
          levelName := levelName
          totalUnits := units.length
          completedUnits := completedWithScores.length
          averageScore := averageScore
          units := unitsWithProgress }

/-- The Coordinator-boundary catch block shared by every operation of the
service: any error thrown inside is re-thrown as a plain `Error` whose message
is the operation's fixed text followed by the original message. -/
def coordinatorCatch (opName : String) (body : Except String α) : Except String α :=
  match body with
  | .ok a => .ok a
  | .error msg => .error (opName ++ msg)

/-- `getStoryProgress(userId, storyId)` (progress.ts:437) with its wrapping
catch block.  `storeFail = some msg` models the persistent store throwing an
exception with message `msg` on the operation's first query; `none` models a
healthy store. -/
def getStoryProgress (storeFail : Option String) (cat : Catalog)
    (userId storyId : String) (s : Store) : Except String StoryProgressResult :=
  coordinatorCatch storyProgressFailureMsg
    (match storeFail with
     | some msg => .error msg
     | none => getStoryProgressBody cat userId storyId s)

/-- The fixed message prefix of `startUnit`'s catch block (progress.ts:43). -/
def startUnitFailureMsg : String := "Failed to start unit: "

/-- The fixed message prefix of `updateAssetProgress`'s catch block
(progress.ts:102). -/
def updateAssetProgressFailureMsg : String := "Failed to update asset progress: "

/-- The fixed message prefix of `recordPronunciationAttempt`'s catch block
(progress.ts:144). -/
def recordPronunciationAttemptFailureMsg : String :=
  "Failed to record pronunciation attempt: "

/-- The fixed message prefix of `calculateUnitScore`'s catch block
(progress.ts:189). -/
def calculateUnitScoreFailureMsg : String := "Failed to calculate unit score: "

/-- The fixed message prefix of `completeUnit`'s catch block (progress.ts:286). -/
def completeUnitFailureMsg : String := "Failed to complete unit: "

/-- The fixed message prefix of `getUnitProgress`'s catch block (progress.ts:324). -/
def getUnitProgressFailureMsg : String := "Failed to get unit progress: "

/-- The fixed message prefix of `getUserProgressSummary`'s catch block
(progress.ts:430). -/
def getUserProgressSummaryFailureMsg : String :=
  "Failed to get user progress summary: "

/-- The fixed message prefix of `getPronunciationAttempts`'s catch block
(progress.ts:533). -/
def getPronunciationAttemptsFailureMsg : String :=
  "Failed to get pronunciation attempts: "

/-- The fixed message prefix of `getAssetProgress`'s catch block (progress.ts:560). -/
def getAssetProgressFailureMsg : String := "Failed to get asset progress: "

/-- `startUnit` with its Coordinator-boundary catch block (progress.ts:16, 41):
`storeFail = some msg` models the store throwing an exception with message
`msg` inside the try block; on a healthy store the pure transformer gives the
result. -/
def startUnitOp (now : Nat) (userId unitId : String) (s : Store)
    (storeFail : Option String) : Except String (Store × UserProgress) :=
  coordinatorCatch startUnitFailureMsg
    (match storeFail with
     | some msg => .error msg
     | none => .ok (startUnit now userId unitId s))

/-- `updateAssetProgress` with its Coordinator-boundary catch block
(progress.ts:50, 100), store failures modelled as in `startUnitOp`. -/
def updateAssetProgressOp (now : Nat) (userId unitId assetId : String)
    (d : AssetUpdateInput) (s : Store)
    (storeFail : Option String) : Except String (Store × UnitAssetProgress) :=
  coordinatorCatch updateAssetProgressFailureMsg
    (match storeFail with
     | some msg => .error msg
     | none => .ok (updateAssetProgress now userId unitId assetId d s))

/-- The result record of `recordPronunciationAttempt` (progress.ts:137). -/
structure RecordAttemptResult where
  attempt : PronunciationAttempt
  averageScore : Rat
  attemptCount : Nat
deriving DecidableEq, Repr

/-- `recordPronunciationAttempt(userId, unitId, audioKey, score, feedback)`
(progress.ts:109): implicitly starts the unit, clamps the score to [0, 100],
appends the attempt row (`feedback || null` turns an absent or empty string
into null), then re-reads the learner's attempts for the unit to report their
average and count (the created row guarantees the list is non-empty). -/
def recordPronunciationAttempt (now : Nat) (userId unitId audioKey : String)
    (score : Rat) (feedback : Option String) (s : Store) : Store × RecordAttemptResult :=
  let s1 := (startUnit now userId unitId s).1
  let validScore := min (max score 0) 100
  let attempt : PronunciationAttempt :=
    { userId := userId, unitId := unitId, audioKey := audioKey, score := validScore,
      feedback := match feedback with
        | some f => if f == "" then none else some f
        | none => none,
      createdAt := now }
  let s2 := { s1 with pronunciationAttempts := s1.pronunciationAttempts ++ [attempt] }
  let attempts := attemptsFor s2 userId unitId
  (s2, { attempt := attempt,
         averageScore := (attempts.map (fun a => a.score)).sum / (attempts.length : Rat),
         attemptCount := attempts.length })

/-- `recordPronunciationAttempt` with its Coordinator-boundary catch block
(progress.ts:109, 142), store failures modelled as in `startUnitOp`. -/
def recordPronunciationAttemptOp (now : Nat) (userId unitId audioKey : String)
    (score : Rat) (feedback : Option String) (s : Store)
    (storeFail : Option String) : Except String (Store × RecordAttemptResult) :=
  coordinatorCatch recordPronunciationAttemptFailureMsg
    (match storeFail with
     | some msg => .error msg
     | none => .ok (recordPronunciationAttempt now userId unitId audioKey score feedback s))

/-- `calculateUnitScore` with its Coordinator-boundary catch block
(progress.ts:151, 187), store failures modelled as in `startUnitOp`. -/
def calculateUnitScoreOp (cat : Catalog) (userId unitId : String) (s : Store)
    (storeFail : Option String) : Except String Int :=
  coordinatorCatch calculateUnitScoreFailureMsg
    (match storeFail with
     | some msg => .error msg
     | none => .ok (calculateUnitScore cat userId unitId s))

/-- The message of the store-layer error Prisma's `update` raises when no row
matches the key — the situation `completeUnit` models as `none`.  It cannot
occur there (`startUnit` has created the row), but it makes the boundary
wrapper total. -/
def missingUpdateRowMsg : String := "Record to update not found."

/-- `completeUnit` with its Coordinator-boundary catch block (progress.ts:196,
284), store failures modelled as in `startUnitOp`; the unreachable missing-row
case of the final update surfaces as the corresponding store failure. -/
def completeUnitOp (now : Nat) (cat : Catalog) (userId unitId : String)
    (finalScore : Option Rat) (s : Store)
    (storeFail : Option String) : Except String (Store × UserProgress × Bool) :=
  coordinatorCatch completeUnitFailureMsg
    (match storeFail with
     | some msg => .error msg
     | none =>
       match completeUnit now cat userId unitId finalScore s with
       | some r => .ok r
       | none => .error missingUpdateRowMsg)

/-- Insertion into a list kept in descending key order; elements already
present with an equal key stay ahead of the inserted one. -/
def insertDescBy {α : Type} (key : α → Nat) (x : α) : List α → List α
  | [] => [x]
  | y :: ys => if key y < key x then x :: y :: ys else y :: insertDescBy key x ys

/-- `orderBy: { createdAt: desc }` on a row list: sort by the key, newest
first (insertion sort; rows with equal keys keep their stored order). -/
def sortDescBy {α : Type} (key : α → Nat) (l : List α) : List α :=
  l.foldl (fun acc x => insertDescBy key x acc) []

/-- One row of `getAssetProgress`'s result: the progress row joined with its
catalog asset through the `asset` relation (progress.ts:544); the asset's
`type` and `minioKey` are presentation metadata the model does not carry. -/
structure AssetProgressView where
  row : UnitAssetProgress
  asset : Option UnitAsset
deriving DecidableEq, Repr

/-- The `include: { asset: ... }` join of `getUnitProgress` and
`getAssetProgress`: each row is paired with the catalog asset its `assetId`
references. -/
def joinAssets (cat : Catalog) (rows : List UnitAssetProgress) : List AssetProgressView :=
  rows.map (fun r =>
    { row := r, asset := (cat.unitAssets r.unitId).find? (fun a => a.id == r.assetId) })

/-- The result record of `getUnitProgress` (progress.ts:317). -/
structure UnitProgressView where
  progress : Option UserProgress
  pronunciationAttempts : List PronunciationAttempt
  assetProgress : List AssetProgressView
deriving DecidableEq, Repr

/-- `getUnitProgress(userId, unitId)` body (progress.ts:295): the learner's
`UserProgress` row if any, the unit's attempts newest first, and the asset
rows joined with their catalog assets. -/
def getUnitProgressBody (cat : Catalog) (userId unitId : String) (s : Store) : UnitProgressView :=
  { progress := findUserProgress s userId unitId
    pronunciationAttempts := sortDescBy (fun a => a.createdAt) (attemptsFor s userId unitId)
    assetProgress := joinAssets cat (assetProgressFor s userId unitId) }

/-- `getUnitProgress` with its Coordinator-boundary catch block
(progress.ts:293, 322), store failures modelled as in `startUnitOp`. -/
def getUnitProgressOp (cat : Catalog) (userId unitId : String) (s : Store)
    (storeFail : Option String) : Except String UnitProgressView :=
  coordinatorCatch getUnitProgressFailureMsg
    (match storeFail with
     | some msg => .error msg
     | none => .ok (getUnitProgressBody cat userId unitId s))

/-- One story group of `getUserProgressSummary` (progress.ts:408). -/
structure StorySummary where
  storyId : String
  storyTitle : String
  levelName : String
  completedUnits : Nat
  totalUnits : Nat
  averageScore : Int
deriving DecidableEq, Repr

/-- The result record of `getUserProgressSummary` (progress.ts:417);
`recentActivity` keeps the joined catalog unit the query's `include` attaches
to each row. -/
structure ProgressSummary where
  userId : String
  totalUnits : Nat
  completedUnits : Nat
  inProgressUnits : Nat
  averageScore : Int
  totalPronunciationAttempts : Nat
  averagePronunciationScore : Rat
  recentActivity : List (UserProgress × CatalogUnit)
  stories : List StorySummary
deriving DecidableEq, Repr

/-- The per-story tally of `getUserProgressSummary`'s `storiesMap`
(progress.ts:375); the JavaScript `Map`'s insertion order is the list order. -/
structure StoryTally where
  storyId : String
  storyTitle : String
  levelName : String
  completedUnits : Nat
  totalUnits : Nat
  totalScore : Int
deriving DecidableEq, Repr

/-- One iteration of the story-grouping loop of `getUserProgressSummary`
(progress.ts:387): create the story's tally on first sight, then bump its unit
count and, for a completed unit, its completed count and score total. -/
def storyTallyStep (tallies : List StoryTally) (p : UserProgress × CatalogUnit) : List StoryTally :=
  let u := p.2
  let seeded :=
    if tallies.any (fun t => t.storyId == u.storyId) then tallies
    else tallies ++ [{ storyId := u.storyId, storyTitle := u.storyTitle,
                       levelName := u.levelName, completedUnits := 0,
                       totalUnits := 0, totalScore := 0 }]
  seeded.map (fun t =>
    if t.storyId == u.storyId then
      { t with
        totalUnits := t.totalUnits + 1
        completedUnits := t.completedUnits + (if p.1.completed then 1 else 0)
        totalScore := t.totalScore + (if p.1.completed then p.1.score else 0) }
    else t)

/-- `getUserProgressSummary(userId)` body (progress.ts:333): aggregate counts,
averages, the ten most recent rows and per-story groups in first-seen order.
`allProgress` stands for the result of the opening query — the learner's
`UserProgress` rows joined with their catalog units, in `updatedAt`-descending
order; the ordering column is Prisma bookkeeping the row model does not carry,
so the body takes the query's result as given.  The attempt query
(progress.ts:363) filters the store by learner only. -/
def getUserProgressSummaryBody (userId : String)
    (allProgress : List (UserProgress × CatalogUnit)) (s : Store) : ProgressSummary :=
  let completedProgress := allProgress.filter (fun p => p.1.completed)
  let attempts := s.pronunciationAttempts.filter (fun a => a.userId == userId)
  { userId := userId
    totalUnits := allProgress.length
    completedUnits := completedProgress.length
    inProgressUnits :=
      (allProgress.filter (fun p => p.1.startedAt.isSome && !p.1.completed)).length
    averageScore :=
      if 0 < completedProgress.length then
        jsRound ((completedProgress.map (fun p => (p.1.score : Rat))).sum /
          (completedProgress.length : Rat))
      else 0
    totalPronunciationAttempts := attempts.length
    averagePronunciationScore :=
      if 0 < attempts.length then
        (attempts.map (fun a => a.score)).sum / (attempts.length : Rat)
      else 0
    recentActivity := allProgress.take 10
    stories := (allProgress.foldl storyTallyStep []).map (fun t =>
      { storyId := t.storyId, storyTitle := t.storyTitle, levelName := t.levelName,
        completedUnits := t.completedUnits, totalUnits := t.totalUnits,
        averageScore :=
          if 0 < t.completedUnits then
            jsRound ((t.totalScore : Rat) / (t.completedUnits : Rat))
          else 0 }) }

/-- `getUserProgressSummary` with its Coordinator-boundary catch block
(progress.ts:331, 428), store failures modelled as in `startUnitOp`. -/
def getUserProgressSummaryOp (userId : String)
    (allProgress : List (UserProgress × CatalogUnit)) (s : Store)
    (storeFail : Option String) : Except String ProgressSummary :=
  coordinatorCatch getUserProgressSummaryFailureMsg
    (match storeFail with
     | some msg => .error msg
     | none => .ok (getUserProgressSummaryBody userId allProgress s))

/-- The result record of `getPronunciationAttempts` (progress.ts:526). -/
structure AttemptsView where
  attempts : List PronunciationAttempt
  averageScore : Rat
  count : Nat
deriving DecidableEq, Repr

/-- `getPronunciationAttempts(userId, unitId)` body (progress.ts:518): the
learner's attempts for the unit, newest first, with their average (0 when
there are none) and count. -/
def getPronunciationAttemptsBody (userId unitId : String) (s : Store) : AttemptsView :=
  let attempts := sortDescBy (fun a => a.createdAt) (attemptsFor s userId unitId)
  { attempts := attempts
    averageScore :=
      if 0 < attempts.length then
        (attempts.map (fun a => a.score)).sum / (attempts.length : Rat)
      else 0
    count := attempts.length }

/-- `getPronunciationAttempts` with its Coordinator-boundary catch block
(progress.ts:516, 531), store failures modelled as in `startUnitOp`. -/
def getPronunciationAttemptsOp (userId unitId : String) (s : Store)
    (storeFail : Option String) : Except String AttemptsView :=
  coordinatorCatch getPronunciationAttemptsFailureMsg
    (match storeFail with
     | some msg => .error msg
     | none => .ok (getPronunciationAttemptsBody userId unitId s))

/-- `getAssetProgress(userId, unitId)` body (progress.ts:542): the learner's
asset-progress rows for the unit joined with their catalog assets, in creation
order (`orderBy: { createdAt: asc }`; the model's rows are stored in creation
order, so the stored order realizes the ascending sort). -/
def getAssetProgressBody (cat : Catalog) (userId unitId : String)
    (s : Store) : List AssetProgressView :=
  joinAssets cat (assetProgressFor s userId unitId)

/-- `getAssetProgress` with its Coordinator-boundary catch block
(progress.ts:540, 558), store failures modelled as in `startUnitOp`. -/
def getAssetProgressOp (cat : Catalog) (userId unitId : String) (s : Store)
    (storeFail : Option String) : Except String (List AssetProgressView) :=
  coordinatorCatch getAssetProgressFailureMsg
    (match storeFail with
     | some msg => .error msg
     | none => .ok (getAssetProgressBody cat userId unitId s))

/-- The scoring rule as §4.1 of the specification words it, for comparison with
`calculateUnitScore`: the asset component (present only when the unit has at
least one catalog asset) is the average of `progressPercentage` over all
catalog assets of the unit, reading the learner's progress row for each asset
and counting an absent row as 0; the pronunciation component (present only
when at least one attempt exists) is the arithmetic mean of the stored attempt
scores; the result is the rounded unweighted average of the components that
are present, or 0 when neither exists. -/
def specUnitScore (cat : Catalog) (userId unitId : String) (s : Store) : Int :=
  let assets := cat.unitAssets unitId
  let rows := assetProgressFor s userId unitId
  let attempts := attemptsFor s userId unitId
  let assetComponent : Option Rat :=
    if 0 < assets.length then
      some ((assets.map (fun a =>
        match rows.find? (fun r => r.assetId == a.id) with
        | some r => r.progressPercentage
        | none => 0)).sum / (assets.length : Rat))
    else none
  let pronComponent : Option Rat :=
    if 0 < attempts.length then
      some ((attempts.map (fun a => a.score)).sum / (attempts.length : Rat))
    else none
  match assetComponent, pronComponent with
  | some a, some p => jsRound ((a + p) / 2)
  | some a, none => jsRound a
  | none, some p => jsRound p
  | none, none => 0

/-- A store with no rows at all. -/
def emptyStore : Store :=
  { userProgress := [], unitAssetProgress := [], pronunciationAttempts := [],
    dailyPlanEntries := [] }

/-- A catalog with no assets and no story units. -/
def emptyCatalog : Catalog := { unitAssets := fun _ => [], storyUnits := fun _ => [] }

/-- Catalog of the worked example of §8: unit `unit-1` has two assets. -/
def exCatalog : Catalog :=
  { unitAssets := fun u =>
      if u == "unit-1" then
        [{ id := "asset-1", duration := some 300 }, { id := "asset-2", duration := some 240 }]
      else []
    storyUnits := fun _ => [] }

/-- A pronunciation attempt of the worked example. -/
def exAttempt (k : String) (sc : Rat) : PronunciationAttempt :=
  { userId := "user-1", unitId := "unit-1", audioKey := k, score := sc, feedback := none,
    createdAt := 0 }

/-- Store of the worked example of §8: asset progress `[100, 80]`, attempts
`[80, 90]`; the first asset row is already completed at instant 3. -/
def exStore : Store :=
  { userProgress :=
      [{ userId := "user-1", unitId := "unit-1", completed := false, score := 0,
         startedAt := some 1, completedAt := none }]
    unitAssetProgress :=
      [{ userId := "user-1", unitId := "unit-1", assetId := "asset-1",
         progressPercentage := 100, secondsWatched := 300, durationSeconds := some 300,
         completed := true, completedAt := some 3 },
       { userId := "user-1", unitId := "unit-1", assetId := "asset-2",
         progressPercentage := 80, secondsWatched := 192, durationSeconds := some 240,
         completed := false, completedAt := none }]
    pronunciationAttempts := [exAttempt "audio-1" 80, exAttempt "audio-2" 90]
    dailyPlanEntries := [] }

/-- A unit-progress row that is already completed at instant 5. -/
def cexUnitRow : UserProgress :=
  { userId := "u", unitId := "unit", completed := true, score := 90,
    startedAt := some 1, completedAt := some 5 }

/-- A store holding only `cexUnitRow`. -/
def cexStore : Store :=
  { userProgress := [cexUnitRow], unitAssetProgress := [], pronunciationAttempts := [],
    dailyPlanEntries := [] }

/-- A store with a started unit and two plan entries, one referencing the unit. -/
def planStore : Store :=
  { userProgress :=
      [{ userId := "u", unitId := "unit", completed := false, score := 0,
         startedAt := some 1, completedAt := none }]
    unitAssetProgress := []
    pronunciationAttempts := []
    dailyPlanEntries :=
      [{ id := 1, planUserId := "u", unitId := "unit", completed := false, score := 0 },
       { id := 2, planUserId := "u", unitId := "other", completed := false, score := 7 }] }

/-- A store whose unit row has `startedAt` already set (instant 3). -/
def startedStore : Store :=
  { userProgress :=
      [{ userId := "u", unitId := "unit", completed := false, score := 0,
         startedAt := some 3, completedAt := none }]
    unitAssetProgress := [], pronunciationAttempts := [], dailyPlanEntries := [] }

/-- The catalog unit of story `s1` used by the reporting examples. -/
def wUnit : CatalogUnit :=
  { id := "unit-1", title := "Unit 1", storyId := "s1", storyTitle := "Story 1",
    levelName := "Beginner" }

/-- A catalog whose story `s1` has exactly one unit and no assets anywhere. -/
def wCat : Catalog :=
  { unitAssets := fun _ => []
    storyUnits := fun sid => if sid == "s1" then [wUnit] else [] }

/-- The data-model invariant on stored asset-progress percentages
(`float[0,100]`), maintained by every write path of the service. -/
def storePctInRange (s : Store) : Prop :=
  ∀ r ∈ s.unitAssetProgress, 0 ≤ r.progressPercentage ∧ r.progressPercentage ≤ 100

/-- The per-asset postcondition of `completeUnit`'s force-fill pass, relative
to the original store `s0`: the asset has a row at 100% marked completed with
`completedAt` set; a freshly created row took the catalog duration (or 0) as
`secondsWatched` and `completedAt = now`; an existing row's already-set
`completedAt` was preserved. -/
def assetForceFilled (s0 sFinal : Store) (now : Nat) (userId : String)
    (a : UnitAsset) : Prop :=
  ∃ row, findAssetProgress sFinal userId a.id = some row
    ∧ row.progressPercentage = 100
    ∧ row.completed = true
    ∧ (∃ t, row.completedAt = some t)
    ∧ (findAssetProgress s0 userId a.id = none →
        row.secondsWatched = a.duration.getD 0 ∧ row.completedAt = some now)
    ∧ (∀ ex t, findAssetProgress s0 userId a.id = some ex → ex.completedAt = some t →
        row.completedAt = some t)

theorem find?_mapReplace_same {α : Type} (l : List α) (k : α → Bool) (v : α)
    (hv : k v = true) :
    (l.map (fun r => if k r then v else r)).find? k = (l.find? k).map (fun _ => v) := by
  induction l with
  | nil => rfl
  | cons a t ih =>
    by_cases h : k a = true
    · simp [List.find?_cons, h, hv]
    · simp [List.find?_cons, h, ih]

theorem find?_mapReplace_other {α : Type} (l : List α) (k q : α → Bool) (v : α)
    (hqv : q v = false) (hdisj : ∀ r, k r = true → q r = false) :
    (l.map (fun r => if k r then v else r)).find? q = l.find? q := by
  induction l with
  | nil => rfl
  | cons a t ih =>
    by_cases h : k a = true
    · simp [List.find?_cons, h, hdisj a h, hqv, ih]
    · simp [List.find?_cons, h, ih]

theorem startUnit_unitAssetProgress (now : Nat) (userId unitId : String) (s : Store) :
    ((startUnit now userId unitId s).1).unitAssetProgress = s.unitAssetProgress := by
  unfold startUnit
  split
  · split <;> rfl
  · rfl

theorem startUnit_pronunciationAttempts (now : Nat) (userId unitId : String) (s : Store) :
    ((startUnit now userId unitId s).1).pronunciationAttempts = s.pronunciationAttempts := by
  unfold startUnit
  split
  · split <;> rfl
  · rfl

theorem startUnit_dailyPlanEntries (now : Nat) (userId unitId : String) (s : Store) :
    ((startUnit now userId unitId s).1).dailyPlanEntries = s.dailyPlanEntries := by
  unfold startUnit
  split
  · split <;> rfl
  · rfl

theorem startUnit_find (now : Nat) (userId unitId : String) (s : Store) :
    findUserProgress ((startUnit now userId unitId s).1) userId unitId =
      some ((startUnit now userId unitId s).2) := by
  unfold startUnit
  split
  next ex hex =>
    have hkey := List.find?_some hex
    split
    next hst =>
      show findUserProgress (updateUserProgressRow s userId unitId _) userId unitId = some _
      unfold findUserProgress at hex
      unfold findUserProgress updateUserProgressRow
      simp only []
      rw [find?_mapReplace_same s.userProgress
          (fun r => r.userId == userId && r.unitId == unitId)
          { ex with startedAt := some now } hkey, hex]
      rfl
    next t hst => exact hex
  next hex =>
    unfold findUserProgress at hex ⊢
    simp only []
    rw [List.find?_append, hex]
    simp

theorem startUnit_startedAt_set (now : Nat) (userId unitId : String) (s : Store) :
    ∃ t, ((startUnit now userId unitId s).2).startedAt = some t := by
  unfold startUnit
  split
  next ex hex =>
    split
    next hst => exact ⟨now, rfl⟩
    next t hst => exact ⟨t, hst⟩
  next hex => exact ⟨now, rfl⟩

theorem startUnit_noop (now' : Nat) (userId unitId : String) (S : Store × UserProgress)
    (h1 : findUserProgress S.1 userId unitId = some S.2)
    (ht : ∃ t, S.2.startedAt = some t) :
    startUnit now' userId unitId S.1 = S := by
  obtain ⟨t, ht⟩ := ht
  unfold startUnit
  simp only [h1, ht]

/-- C6: `startUnit` is idempotent.  Once `startedAt` is set, a call returns the
stored record and leaves the store unchanged, and a second call right after a
first one returns exactly the first call's store and record (in particular the
same `startedAt`). -/
theorem startUnit_idempotent (now now' : Nat) (userId unitId : String) (s : Store) :
    (∀ ex t, findUserProgress s userId unitId = some ex → ex.startedAt = some t →
      startUnit now' userId unitId s = (s, ex))
    ∧ startUnit now' userId unitId ((startUnit now userId unitId s).1) =
        startUnit now userId unitId s := by
  constructor
  · intro ex t hex hst
    have : startUnit now' userId unitId (s, ex).1 = (s, ex) :=
      startUnit_noop now' userId unitId (s, ex) hex ⟨t, hst⟩
    exact this
  · exact startUnit_noop now' userId unitId (startUnit now userId unitId s)
      (startUnit_find now userId unitId s) (startUnit_startedAt_set now userId unitId s)

/-- Witness for C6 at a concrete already-started store. -/
theorem startUnit_idempotent_w :
    startUnit 9 "u" "unit" startedStore =
      (startedStore,
        { userId := "u", unitId := "unit", completed := false, score := 0,
          startedAt := some 3, completedAt := none }) :=
  (startUnit_idempotent 9 9 "u" "unit" startedStore).1
    { userId := "u", unitId := "unit", completed := false, score := 0,
      startedAt := some 3, completedAt := none } 3 (by decide) rfl

theorem findAssetProgress_congr (s s' : Store)
    (h : s'.unitAssetProgress = s.unitAssetProgress) (userId assetId : String) :
    findAssetProgress s' userId assetId = findAssetProgress s userId assetId := by
  unfold findAssetProgress
  rw [h]

theorem findAssetProgress_updateRow (s : Store) (userId assetId : String)
    (row : UnitAssetProgress)
    (hkey : (row.userId == userId && row.assetId == assetId) = true) :
    findAssetProgress (updateAssetProgressRow s userId assetId row) userId assetId
      = (findAssetProgress s userId assetId).map (fun _ => row) :=
  find?_mapReplace_same s.unitAssetProgress
    (fun r => r.userId == userId && r.assetId == assetId) row hkey

theorem updateAssetProgress_eq_update (now : Nat) (userId unitId assetId : String)
    (d : AssetUpdateInput) (s : Store) (ex : UnitAssetProgress)
    (hex : findAssetProgress ((startUnit now userId unitId s).1) userId assetId = some ex) :
    updateAssetProgress now userId unitId assetId d s =
      (updateAssetProgressRow ((startUnit now userId unitId s).1) userId assetId
        (assetUpdatedRow now d ex), assetUpdatedRow now d ex) := by
  unfold updateAssetProgress
  simp only [hex]

theorem updateAssetProgress_eq_create (now : Nat) (userId unitId assetId : String)
    (d : AssetUpdateInput) (s : Store)
    (hex : findAssetProgress ((startUnit now userId unitId s).1) userId assetId = none) :
    updateAssetProgress now userId unitId assetId d s =
      ({ (startUnit now userId unitId s).1 with unitAssetProgress :=
          ((startUnit now userId unitId s).1).unitAssetProgress
            ++ [assetCreatedRow now userId unitId assetId d] },
        assetCreatedRow now userId unitId assetId d) := by
  unfold updateAssetProgress
  simp only [hex]

theorem isCompletedFlag_true_iff (d : AssetUpdateInput) :
    isCompletedFlag d = true ↔
      (d.completed = some true ∨ (d.completed = none ∧ 90 ≤ sanitizedPct d)) := by
  unfold isCompletedFlag
  cases hc : d.completed with
  | none => simp [decide_eq_true_iff]
  | some b => cases b <;> simp

/-- C7: `updateAssetProgress` sanitizes its inputs: `secondsWatched` is floored
and clamped below at 0, `progressPercentage` is clamped to [0, 100],
`durationSeconds` (when given) is floored and clamped below at 0, and
`completed` is true exactly when the override is explicitly true or, absent an
override, the clamped percentage is at least 90. -/
theorem updateAssetProgress_sanitizes (now : Nat) (userId unitId assetId : String)
    (d : AssetUpdateInput) (s : Store) :
    (updateAssetProgress now userId unitId assetId d s).2.secondsWatched
        = max 0 ⌊d.secondsWatched⌋
    ∧ (updateAssetProgress now userId unitId assetId d s).2.progressPercentage
        = min (max d.progressPercentage 0) 100
    ∧ (∀ v, d.durationSeconds = some v →
        (updateAssetProgress now userId unitId assetId d s).2.durationSeconds
          = some (max 0 ⌊v⌋))
    ∧ ((updateAssetProgress now userId unitId assetId d s).2.completed = true ↔
        (d.completed = some true ∨
          (d.completed = none ∧ 90 ≤ min (max d.progressPercentage 0) 100))) := by
  cases hex : findAssetProgress ((startUnit now userId unitId s).1) userId assetId with
  | some ex =>
    rw [updateAssetProgress_eq_update now userId unitId assetId d s ex hex]
    refine ⟨rfl, rfl, ?_, ?_⟩
    · intro v hv
      show (match sanitizedDuration d with
        | some v => some v
        | none => ex.durationSeconds) = some (max 0 ⌊v⌋)
      unfold sanitizedDuration
      rw [hv]
      rfl
    · exact isCompletedFlag_true_iff d
  | none =>
    rw [updateAssetProgress_eq_create now userId unitId assetId d s hex]
    refine ⟨rfl, rfl, ?_, ?_⟩
    · intro v hv
      show sanitizedDuration d = some (max 0 ⌊v⌋)
      unfold sanitizedDuration
      rw [hv]
      rfl
    · exact isCompletedFlag_true_iff d

/-- Witness for C7: percentage 150 persists as 100, -5 persists as 0, and a
fractional duration 7/2 is floored to 3. -/
theorem updateAssetProgress_sanitizes_w :
    (updateAssetProgress 1 "u" "unit" "a"
        { secondsWatched := 10, progressPercentage := 150, durationSeconds := some (7 / 2),
          completed := none } emptyStore).2.progressPercentage = 100
    ∧ (updateAssetProgress 1 "u" "unit" "a"
        { secondsWatched := 10, progressPercentage := -5, durationSeconds := none,
          completed := none } emptyStore).2.progressPercentage = 0
    ∧ (updateAssetProgress 1 "u" "unit" "a"
        { secondsWatched := 10, progressPercentage := 150, durationSeconds := some (7 / 2),
          completed := none } emptyStore).2.durationSeconds = some 3 :=
  ⟨((updateAssetProgress_sanitizes 1 "u" "unit" "a"
      { secondsWatched := 10, progressPercentage := 150, durationSeconds := some (7 / 2),
        completed := none } emptyStore).2.1).trans (by norm_num),
   ((updateAssetProgress_sanitizes 1 "u" "unit" "a"
      { secondsWatched := 10, progressPercentage := -5, durationSeconds := none,
        completed := none } emptyStore).2.1).trans (by norm_num),
   ((updateAssetProgress_sanitizes 1 "u" "unit" "a"
      { secondsWatched := 10, progressPercentage := 150, durationSeconds := some (7 / 2),
        completed := none } emptyStore).2.2.1 (7 / 2) rfl).trans (by norm_num)⟩

/-- C3: once an asset-progress row has `completedAt` set, a later update for the
same (user, asset) — at any percentage — leaves `completedAt` unchanged while
`progressPercentage` and `secondsWatched` take the new sanitized values, and
the stored row is the returned one. -/
theorem updateAssetProgress_sticky (now : Nat) (userId unitId assetId : String)
    (d : AssetUpdateInput) (s : Store) (ex : UnitAssetProgress) (t : Nat)
    (hex : findAssetProgress s userId assetId = some ex)
    (ht : ex.completedAt = some t) :
    (updateAssetProgress now userId unitId assetId d s).2.completedAt = some t
    ∧ (updateAssetProgress now userId unitId assetId d s).2.progressPercentage
        = min (max d.progressPercentage 0) 100
    ∧ (updateAssetProgress now userId unitId assetId d s).2.secondsWatched
        = max 0 ⌊d.secondsWatched⌋
    ∧ findAssetProgress (updateAssetProgress now userId unitId assetId d s).1 userId assetId
        = some (updateAssetProgress now userId unitId assetId d s).2 := by
  have hs1 : findAssetProgress ((startUnit now userId unitId s).1) userId assetId = some ex :=
    (findAssetProgress_congr s ((startUnit now userId unitId s).1)
      (startUnit_unitAssetProgress now userId unitId s) userId assetId).trans hex
  have hkey := List.find?_some hs1
  rw [updateAssetProgress_eq_update now userId unitId assetId d s ex hs1]
  refine ⟨?_, rfl, rfl, ?_⟩
  · show (if isCompletedFlag d then some (ex.completedAt.getD now) else ex.completedAt) = some t
    rw [ht]
    simp
  · rw [findAssetProgress_updateRow ((startUnit now userId unitId s).1) userId assetId
        (assetUpdatedRow now d ex) hkey, hs1]
    rfl

/-- Witness for C3: the already-completed first asset row of the example store
(completed at instant 3) is updated to 40% without touching `completedAt`. -/
theorem updateAssetProgress_sticky_w :
    (updateAssetProgress 9 "user-1" "unit-1" "asset-1"
        { secondsWatched := 120, progressPercentage := 40, durationSeconds := none,
          completed := none } exStore).2.completedAt = some 3
    ∧ (updateAssetProgress 9 "user-1" "unit-1" "asset-1"
        { secondsWatched := 120, progressPercentage := 40, durationSeconds := none,
          completed := none } exStore).2.progressPercentage
        = min (max 40 0) 100 :=
  ⟨(updateAssetProgress_sticky 9 "user-1" "unit-1" "asset-1"
      { secondsWatched := 120, progressPercentage := 40, durationSeconds := none,
        completed := none } exStore
      { userId := "user-1", unitId := "unit-1", assetId := "asset-1",
        progressPercentage := 100, secondsWatched := 300, durationSeconds := some 300,
        completed := true, completedAt := some 3 } 3 (by decide) rfl).1,
   (updateAssetProgress_sticky 9 "user-1" "unit-1" "asset-1"
      { secondsWatched := 120, progressPercentage := 40, durationSeconds := none,
        completed := none } exStore
      { userId := "user-1", unitId := "unit-1", assetId := "asset-1",
        progressPercentage := 100, secondsWatched := 300, durationSeconds := some 300,
        completed := true, completedAt := some 3 } 3 (by decide) rfl).2.1⟩

/-- C10: the `completed` flag is recomputed on every update: an update with no
override and a clamped percentage below 90 on an already-completed row
persists `completed = false` while `completedAt` stays set. -/
theorem updateAssetProgress_completed_not_sticky (now : Nat)
    (userId unitId assetId : String) (d : AssetUpdateInput) (s : Store)
    (ex : UnitAssetProgress) (t : Nat)
    (hex : findAssetProgress s userId assetId = some ex)
    (hcompleted : ex.completed = true)
    (ht : ex.completedAt = some t)
    (hov : d.completed = none)
    (hlow : min (max d.progressPercentage 0) 100 < 90) :
    (updateAssetProgress now userId unitId assetId d s).2.completed = false
    ∧ (updateAssetProgress now userId unitId assetId d s).2.completedAt = some t := by
  have hs1 : findAssetProgress ((startUnit now userId unitId s).1) userId assetId = some ex :=
    (findAssetProgress_congr s ((startUnit now userId unitId s).1)
      (startUnit_unitAssetProgress now userId unitId s) userId assetId).trans hex
  have hflag : isCompletedFlag d = false := by
    unfold isCompletedFlag sanitizedPct
    rw [hov]
    exact decide_eq_false (not_le.mpr hlow)
  rw [updateAssetProgress_eq_update now userId unitId assetId d s ex hs1]
  constructor
  · exact hflag
  · show (if isCompletedFlag d then some (ex.completedAt.getD now) else ex.completedAt) = some t
    rw [hflag, ht]
    rfl

/-- Witness for C10: updating the completed first asset row of the example
store to 50% with no override clears `completed` but keeps `completedAt`. -/
theorem updateAssetProgress_completed_not_sticky_w :
    (updateAssetProgress 9 "user-1" "unit-1" "asset-1"
        { secondsWatched := 150, progressPercentage := 50, durationSeconds := none,
          completed := none } exStore).2.completed = false
    ∧ (updateAssetProgress 9 "user-1" "unit-1" "asset-1"
        { secondsWatched := 150, progressPercentage := 50, durationSeconds := none,
          completed := none } exStore).2.completedAt = some 3 :=
  updateAssetProgress_completed_not_sticky 9 "user-1" "unit-1" "asset-1"
    { secondsWatched := 150, progressPercentage := 50, durationSeconds := none,
      completed := none } exStore
    { userId := "user-1", unitId := "unit-1", assetId := "asset-1",
      progressPercentage := 100, secondsWatched := 300, durationSeconds := some 300,
      completed := true, completedAt := some 3 } 3 (by decide) rfl rfl rfl (by norm_num)

theorem clampPct_bounds (x : Rat) : 0 ≤ clampPct x ∧ clampPct x ≤ 100 := by
  unfold clampPct
  exact ⟨le_min (le_max_right x 0) (by norm_num), min_le_right (max x 0) 100⟩

theorem clampPct_eq_self (x : Rat) (h0 : 0 ≤ x) (h1 : x ≤ 100) : clampPct x = x := by
  unfold clampPct
  rw [max_eq_left h0, min_eq_left h1]

theorem progressMapGet_eq (rows : List UnitAssetProgress) (k : String) :
    progressMapGet rows k =
      (rows.reverse.find? (fun r => r.assetId == k)).map
        (fun r => clampPct r.progressPercentage) := by
  suffices h : ∀ m : String → Option Rat,
      rows.foldl
        (fun m row => fun q =>
          if q == row.assetId then some (clampPct row.progressPercentage) else m q)
        m k
      = (match rows.reverse.find? (fun r => r.assetId == k) with
          | some r => some (clampPct r.progressPercentage)
          | none => m k) by
    rw [show progressMapGet rows k
        = rows.foldl
            (fun m row => fun q =>
              if q == row.assetId then some (clampPct row.progressPercentage) else m q)
            (fun _ => none) k from rfl, h (fun _ => none)]
    cases rows.reverse.find? (fun r => r.assetId == k) <;> rfl
  induction rows with
  | nil => intro m; rfl
  | cons a t ih =>
    intro m
    simp only [List.foldl_cons, List.reverse_cons, List.find?_append]
    rw [ih]
    cases hf : t.reverse.find? (fun r => r.assetId == k) with
    | some r => rfl
    | none =>
      by_cases hk : k = a.assetId
      · simp [List.find?_cons, hk]
      · have h1 : (a.assetId == k) = false := beq_eq_false_iff_ne.2 (fun h => hk h.symm)
        have h2 : (k == a.assetId) = false := beq_eq_false_iff_ne.2 hk
        simp [List.find?_cons, h1, h2]

theorem reverse_find?_of_nodup (rows : List UnitAssetProgress) (k : String)
    (h : (rows.map (fun r => r.assetId)).Nodup) :
    rows.reverse.find? (fun r => r.assetId == k) = rows.find? (fun r => r.assetId == k) := by
  induction rows with
  | nil => rfl
  | cons a t ih =>
    rw [List.map_cons, List.nodup_cons] at h
    obtain ⟨ha, ht⟩ := h
    simp only [List.reverse_cons, List.find?_append]
    rw [ih ht]
    cases hf : t.find? (fun r => r.assetId == k) with
    | some r =>
      have hrmem := List.mem_of_find?_eq_some hf
      have hrk := List.find?_some hf
      have hrk' : r.assetId = k := by simpa using hrk
      have hpa : (a.assetId == k) = false := by
        rw [beq_eq_false_iff_ne]
        intro hak
        exact ha (by
          rw [hak, ← hrk']
          exact List.mem_map_of_mem (fun r => r.assetId) hrmem)
      simp [List.find?_cons, hpa, hf]
    | none =>
      cases hpa : (a.assetId == k) with
      | true => simp [List.find?_cons, hpa]
      | false => simp [List.find?_cons, hpa, hf]

theorem progressMapGet_of_nodup (rows : List UnitAssetProgress) (k : String)
    (h : (rows.map (fun r => r.assetId)).Nodup) :
    progressMapGet rows k =
      (rows.find? (fun r => r.assetId == k)).map (fun r => clampPct r.progressPercentage) := by
  rw [progressMapGet_eq, reverse_find?_of_nodup rows k h]

theorem progressMapGet_getD_bounds (rows : List UnitAssetProgress) (k : String) :
    0 ≤ (progressMapGet rows k).getD 0 ∧ (progressMapGet rows k).getD 0 ≤ 100 := by
  rw [progressMapGet_eq]
  cases rows.reverse.find? (fun r => r.assetId == k) with
  | none => norm_num
  | some r => simpa using clampPct_bounds r.progressPercentage

theorem list_avg_bounds (l : List Rat) (hl : 0 < l.length)
    (h : ∀ x ∈ l, 0 ≤ x ∧ x ≤ 100) :
    0 ≤ l.sum / (l.length : Rat) ∧ l.sum / (l.length : Rat) ≤ 100 := by
  have hlen : (0 : Rat) < (l.length : Rat) := by exact_mod_cast hl
  constructor
  · exact div_nonneg (List.sum_nonneg (fun x hx => (h x hx).1)) hlen.le
  · rw [div_le_iff hlen]
    calc l.sum ≤ l.length • (100 : Rat) :=
          List.sum_le_card_nsmul l 100 (fun x hx => (h x hx).2)
      _ = 100 * (l.length : Rat) := by rw [nsmul_eq_mul]; ring

theorem jsRound_nonneg (x : Rat) (h : 0 ≤ x) : 0 ≤ jsRound x := by
  unfold jsRound
  exact Int.floor_nonneg.mpr (by linarith)

theorem jsRound_le_100 (x : Rat) (h : x ≤ 100) : jsRound x ≤ 100 := by
  unfold jsRound
  have h101 : (⌊x + 1 / 2⌋ : Int) < 101 := by
    rw [Int.floor_lt]
    push_cast
    linarith
  omega

theorem jsRound_intCast (n : Int) : jsRound ((n : Int) : Rat) = n := by
  unfold jsRound
  rw [Int.floor_int_add]
  norm_num

theorem unitScoreComponents_bounds (cat : Catalog) (userId unitId : String) (s : Store)
    (hAtt : ∀ a ∈ s.pronunciationAttempts, 0 ≤ a.score ∧ a.score ≤ 100) :
    ∀ c ∈ unitScoreComponents cat userId unitId s, 0 ≤ c ∧ c ≤ 100 := by
  intro c hc
  unfold unitScoreComponents at hc
  rw [List.mem_append] at hc
  cases hc with
  | inl hc =>
    by_cases hA : 0 < (cat.unitAssets unitId).length
    · simp only [if_pos hA, List.mem_singleton] at hc
      subst hc
      have hmap : ∀ x ∈ (cat.unitAssets unitId).map
          (fun a => (progressMapGet (assetProgressFor s userId unitId) a.id).getD 0),
          0 ≤ x ∧ x ≤ 100 := by
        intro x hx
        obtain ⟨a, _, rfl⟩ := List.mem_map.1 hx
        exact progressMapGet_getD_bounds (assetProgressFor s userId unitId) a.id
      have hb := list_avg_bounds ((cat.unitAssets unitId).map
          (fun a => (progressMapGet (assetProgressFor s userId unitId) a.id).getD 0))
        (by simpa using hA) hmap
      simpa [List.length_map] using hb
    · rw [if_neg hA] at hc
      simp at hc
  | inr hc =>
    by_cases hP : 0 < (attemptsFor s userId unitId).length
    · simp only [if_pos hP, List.mem_singleton] at hc
      subst hc
      have hmap : ∀ x ∈ (attemptsFor s userId unitId).map (fun a => a.score),
          0 ≤ x ∧ x ≤ 100 := by
        intro x hx
        obtain ⟨a, ha, rfl⟩ := List.mem_map.1 hx
        exact hAtt a (List.mem_of_mem_filter ha)
      have hb := list_avg_bounds ((attemptsFor s userId unitId).map (fun a => a.score))
        (by simpa using hP) hmap
      simpa [List.length_map] using hb
    · rw [if_neg hP] at hc
      simp at hc

/-- C4: for any store whose attempt scores are in [0, 100] (which the write
path guarantees), `calculateUnitScore` returns an integer in [0, 100], equal
to the rounded combined component average with the [0, 100] clamp being the
identity on it. -/
theorem calculateUnitScore_int_range (cat : Catalog) (userId unitId : String) (s : Store)
    (hAtt : ∀ a ∈ s.pronunciationAttempts, 0 ≤ a.score ∧ a.score ≤ 100) :
    0 ≤ calculateUnitScore cat userId unitId s
    ∧ calculateUnitScore cat userId unitId s ≤ 100
    ∧ calculateUnitScore cat userId unitId s
        = (if (unitScoreComponents cat userId unitId s).length = 0 then 0
           else min 100 (max 0 (jsRound ((unitScoreComponents cat userId unitId s).sum /
             ((unitScoreComponents cat userId unitId s).length : Rat))))) := by
  by_cases h0 : (unitScoreComponents cat userId unitId s).length = 0
  · unfold calculateUnitScore
    rw [if_pos h0, if_pos h0]
    norm_num
  · have havg := list_avg_bounds (unitScoreComponents cat userId unitId s)
      (Nat.pos_of_ne_zero h0) (unitScoreComponents_bounds cat userId unitId s hAtt)
    have hr0 : 0 ≤ jsRound ((unitScoreComponents cat userId unitId s).sum /
        ((unitScoreComponents cat userId unitId s).length : Rat)) :=
      jsRound_nonneg _ havg.1
    have hr1 : jsRound ((unitScoreComponents cat userId unitId s).sum /
        ((unitScoreComponents cat userId unitId s).length : Rat)) ≤ 100 :=
      jsRound_le_100 _ havg.2
    unfold calculateUnitScore
    rw [if_neg h0, if_neg h0, max_eq_right hr0, min_eq_right hr1]
    exact ⟨hr0, hr1, rfl⟩

/-- Witness for C4 at the worked example store. -/
theorem calculateUnitScore_int_range_w :
    0 ≤ calculateUnitScore exCatalog "user-1" "unit-1" exStore
    ∧ calculateUnitScore exCatalog "user-1" "unit-1" exStore ≤ 100
    ∧ calculateUnitScore exCatalog "user-1" "unit-1" exStore
        = (if (unitScoreComponents exCatalog "user-1" "unit-1" exStore).length = 0 then 0
           else min 100 (max 0 (jsRound
             ((unitScoreComponents exCatalog "user-1" "unit-1" exStore).sum /
             ((unitScoreComponents exCatalog "user-1" "unit-1" exStore).length : Rat))))) :=
  calculateUnitScore_int_range exCatalog "user-1" "unit-1" exStore (by decide)

/-- C1: `calculateUnitScore` computes exactly the §4.1 formula (asset component
averaged over all catalog assets with absent rows as 0, pronunciation
component the mean of all stored attempts, unweighted average of the present
components, 0 when none), on any store satisfying the data-model invariants
(progress percentages in [0, 100], at most one row per asset). -/
theorem calculateUnitScore_matches_spec (cat : Catalog) (userId unitId : String) (s : Store)
    (hpct : ∀ r ∈ s.unitAssetProgress, 0 ≤ r.progressPercentage ∧ r.progressPercentage ≤ 100)
    (hkeys : ((assetProgressFor s userId unitId).map (fun r => r.assetId)).Nodup) :
    calculateUnitScore cat userId unitId s = specUnitScore cat userId unitId s := by
  have hlookup : ∀ k, (progressMapGet (assetProgressFor s userId unitId) k).getD 0
      = (match (assetProgressFor s userId unitId).find? (fun r => r.assetId == k) with
         | some r => r.progressPercentage
         | none => 0) := by
    intro k
    rw [progressMapGet_of_nodup (assetProgressFor s userId unitId) k hkeys]
    cases hf : (assetProgressFor s userId unitId).find? (fun r => r.assetId == k) with
    | none => rfl
    | some r =>
      have hr := hpct r (List.mem_of_mem_filter (List.mem_of_find?_eq_some hf))
      simp [clampPct_eq_self r.progressPercentage hr.1 hr.2]
  have hsum : ((cat.unitAssets unitId).map
        (fun a => (progressMapGet (assetProgressFor s userId unitId) a.id).getD 0)).sum
      = ((cat.unitAssets unitId).map
        (fun a => match (assetProgressFor s userId unitId).find?
            (fun r => r.assetId == a.id) with
          | some r => r.progressPercentage
          | none => 0)).sum := by
    rw [List.map_congr_left (fun a _ => hlookup a.id)]
  unfold calculateUnitScore unitScoreComponents specUnitScore
  by_cases hA : 0 < (cat.unitAssets unitId).length
  · by_cases hP : 0 < (attemptsFor s userId unitId).length
    · simp only [if_pos hA, if_pos hP, hsum, List.singleton_append, List.length_cons,
        List.length_singleton, List.sum_cons, List.sum_nil]
      norm_num
    · simp only [if_pos hA, if_neg hP, hsum, List.append_nil, List.length_singleton,
        List.sum_cons, List.sum_nil]
      norm_num
  · by_cases hP : 0 < (attemptsFor s userId unitId).length
    · simp only [if_neg hA, if_pos hP, List.nil_append, List.length_singleton,
        List.sum_cons, List.sum_nil]
      norm_num
    · simp only [if_neg hA, if_neg hP, List.append_nil, List.length_nil]
      norm_num

/-- Witness for C1: on the worked example of §8 (2 catalog assets at progress
[100, 80], attempts [80, 90]) the score is 88. -/
theorem calculateUnitScore_matches_spec_w :
    calculateUnitScore exCatalog "user-1" "unit-1" exStore = 88 :=
  (calculateUnitScore_matches_spec exCatalog "user-1" "unit-1" exStore
      (by decide) (by decide)).trans
    (by
      have h1 : (("asset-1" : String) == "asset-2") = false := by decide
      have h2 : (("asset-2" : String) == "asset-2") = true := by decide
      norm_num [specUnitScore, assetProgressFor, attemptsFor, exStore, exCatalog, exAttempt,
        jsRound, List.find?, List.filter, h1, h2])

/-- C8: on a healthy store `getStoryProgress` fails — with the wrapped
story-not-found error — exactly when the story has zero catalog units;
otherwise it returns one entry per catalog unit of the story in catalog
order, and a unit with no `UserProgress` row yields completed = false,
score = 0 and null timestamps rather than an error. -/
theorem getStoryProgress_notFound_iff (cat : Catalog) (userId storyId : String) (s : Store) :
    (getStoryProgress none cat userId storyId s
        = .error (storyProgressFailureMsg ++ storyNotFoundMsg)
      ↔ cat.storyUnits storyId = [])
    ∧ (∀ u0 rest, cat.storyUnits storyId = u0 :: rest →
        ∃ res, getStoryProgress none cat userId storyId s = .ok res
          ∧ res.units = (cat.storyUnits storyId).map
              (buildStoryUnitView s userId u0.storyTitle)
          ∧ ∀ u, findUserProgress s userId u.id = none →
              (buildStoryUnitView s userId u0.storyTitle u).completed = false
              ∧ (buildStoryUnitView s userId u0.storyTitle u).score = 0
              ∧ (buildStoryUnitView s userId u0.storyTitle u).startedAt = none
              ∧ (buildStoryUnitView s userId u0.storyTitle u).completedAt = none) := by
  unfold getStoryProgress coordinatorCatch getStoryProgressBody
  cases hu : cat.storyUnits storyId with
  | nil =>
    simp only [hu]
    constructor
    · simp
    · intro u0 rest h
      exact absurd h (by simp)
  | cons u0' rest' =>
    simp only [hu]
    constructor
    · constructor
      · intro h
        exact absurd h (by simp)
      · intro h
        exact absurd h (by simp)
    · intro u0 rest h
      injection h with h1 h2
      subst h1
      subst h2
      refine ⟨_, rfl, rfl, ?_⟩
      intro u hprog
      unfold buildStoryUnitView
      simp [hprog]

/-- Witness for C8: the one-unit story `s1` on an empty store succeeds with a
defaulted entry, and the failure equivalence holds at that input. -/
theorem getStoryProgress_notFound_iff_w :
    (getStoryProgress none wCat "u" "s1" emptyStore
        = .error (storyProgressFailureMsg ++ storyNotFoundMsg)
      ↔ wCat.storyUnits "s1" = [])
    ∧ ∃ res, getStoryProgress none wCat "u" "s1" emptyStore = .ok res
        ∧ res.units = (wCat.storyUnits "s1").map (buildStoryUnitView emptyStore "u" wUnit.storyTitle)
        ∧ (buildStoryUnitView emptyStore "u" wUnit.storyTitle wUnit).completed = false
        ∧ (buildStoryUnitView emptyStore "u" wUnit.storyTitle wUnit).score = 0 := by
  have h := getStoryProgress_notFound_iff wCat "u" "s1" emptyStore
  refine ⟨h.1, ?_⟩
  obtain ⟨res, hres, hunits, hdef⟩ := h.2 wUnit [] (by decide)
  have hd := hdef wUnit (by decide)
  exact ⟨res, hres, hunits, hd.1, hd.2.1⟩

/-- C9 (amended): every store-layer exception raised inside any of the ten
Coordinator operations of the service is caught at that operation's boundary
and re-thrown as a plain error whose message is the operation's fixed
`Failed to ...` prefix followed by the original message, so no store-specific
exception escapes unwrapped — but no distinct error kind marks the result: the
not-found condition is wrapped into the very same form. -/
theorem coordinator_wraps_store_failures (msg : String) (now : Nat) (cat : Catalog)
    (userId unitId assetId audioKey storyId : String) (d : AssetUpdateInput)
    (score : Rat) (feedback : Option String) (finalScore : Option Rat)
    (allProgress : List (UserProgress × CatalogUnit)) (s : Store) :
    startUnitOp now userId unitId s (some msg)
      = .error (startUnitFailureMsg ++ msg)
    ∧ updateAssetProgressOp now userId unitId assetId d s (some msg)
      = .error (updateAssetProgressFailureMsg ++ msg)
    ∧ recordPronunciationAttemptOp now userId unitId audioKey score feedback s (some msg)
      = .error (recordPronunciationAttemptFailureMsg ++ msg)
    ∧ calculateUnitScoreOp cat userId unitId s (some msg)
      = .error (calculateUnitScoreFailureMsg ++ msg)
    ∧ completeUnitOp now cat userId unitId finalScore s (some msg)
      = .error (completeUnitFailureMsg ++ msg)
    ∧ getUnitProgressOp cat userId unitId s (some msg)
      = .error (getUnitProgressFailureMsg ++ msg)
    ∧ getUserProgressSummaryOp userId allProgress s (some msg)
      = .error (getUserProgressSummaryFailureMsg ++ msg)
    ∧ getStoryProgress (some msg) cat userId storyId s
      = .error (storyProgressFailureMsg ++ msg)
    ∧ getPronunciationAttemptsOp userId unitId s (some msg)
      = .error (getPronunciationAttemptsFailureMsg ++ msg)
    ∧ getAssetProgressOp cat userId unitId s (some msg)
      = .error (getAssetProgressFailureMsg ++ msg) :=
  ⟨rfl, rfl, rfl, rfl, rfl, rfl, rfl, rfl, rfl, rfl⟩

/-- Counterexample for C9 as stated: a store failure during `getStoryProgress`
on an existing story and the NotFound condition (story with zero units)
produce literally the same error value, so the caller cannot distinguish a
StoreError kind from the NotFound kind. -/
theorem storeError_notFound_indistinguishable :
    getStoryProgress (some storyNotFoundMsg) wCat "u" "s1" emptyStore
      = getStoryProgress none emptyCatalog "u" "s2" emptyStore
    ∧ getStoryProgress none emptyCatalog "u" "s2" emptyStore
      = .error (storyProgressFailureMsg ++ storyNotFoundMsg)
    ∧ wCat.storyUnits "s1" ≠ [] := by
  refine ⟨rfl, rfl, by decide⟩

theorem findUserProgress_congr (s s' : Store) (h : s'.userProgress = s.userProgress)
    (userId unitId : String) :
    findUserProgress s' userId unitId = findUserProgress s userId unitId := by
  unfold findUserProgress
  rw [h]

theorem findUserProgress_updateRow (s : Store) (userId unitId : String) (row : UserProgress)
    (hkey : (row.userId == userId && row.unitId == unitId) = true) :
    findUserProgress (updateUserProgressRow s userId unitId row) userId unitId
      = (findUserProgress s userId unitId).map (fun _ => row) :=
  find?_mapReplace_same s.userProgress
    (fun r => r.userId == userId && r.unitId == unitId) row hkey

theorem forceCompleteAsset_userProgress (now : Nat) (userId unitId : String)
    (st : Store) (a : UnitAsset) :
    (forceCompleteAsset now userId unitId st a).userProgress = st.userProgress := by
  unfold forceCompleteAsset
  split
  · split <;> rfl
  · rfl

theorem forceCompleteAsset_pron (now : Nat) (userId unitId : String)
    (st : Store) (a : UnitAsset) :
    (forceCompleteAsset now userId unitId st a).pronunciationAttempts
      = st.pronunciationAttempts := by
  unfold forceCompleteAsset
  split
  · split <;> rfl
  · rfl

theorem forceCompleteAsset_plan (now : Nat) (userId unitId : String)
    (st : Store) (a : UnitAsset) :
    (forceCompleteAsset now userId unitId st a).dailyPlanEntries = st.dailyPlanEntries := by
  unfold forceCompleteAsset
  split
  · split <;> rfl
  · rfl

theorem forceFill_userProgress (now : Nat) (userId unitId : String)
    (assets : List UnitAsset) : ∀ st : Store,
    (assets.foldl (forceCompleteAsset now userId unitId) st).userProgress = st.userProgress := by
  induction assets with
  | nil => intro st; rfl
  | cons a t ih =>
    intro st
    rw [List.foldl_cons, ih, forceCompleteAsset_userProgress]

theorem forceFill_pron (now : Nat) (userId unitId : String)
    (assets : List UnitAsset) : ∀ st : Store,
    (assets.foldl (forceCompleteAsset now userId unitId) st).pronunciationAttempts
      = st.pronunciationAttempts := by
  induction assets with
  | nil => intro st; rfl
  | cons a t ih =>
    intro st
    rw [List.foldl_cons, ih, forceCompleteAsset_pron]

theorem forceFill_plan (now : Nat) (userId unitId : String)
    (assets : List UnitAsset) : ∀ st : Store,
    (assets.foldl (forceCompleteAsset now userId unitId) st).dailyPlanEntries
      = st.dailyPlanEntries := by
  induction assets with
  | nil => intro st; rfl
  | cons a t ih =>
    intro st
    rw [List.foldl_cons, ih, forceCompleteAsset_plan]

theorem syncPlanStep_userProgress (score : Int) (st : Store) (e : DailyPlanEntry) :
    (syncPlanEntryStep score st e).userProgress = st.userProgress := by
  unfold syncPlanEntryStep
  split <;> rfl

theorem syncPlanStep_unitAssetProgress (score : Int) (st : Store) (e : DailyPlanEntry) :
    (syncPlanEntryStep score st e).unitAssetProgress = st.unitAssetProgress := by
  unfold syncPlanEntryStep
  split <;> rfl

theorem syncPlanStep_pron (score : Int) (st : Store) (e : DailyPlanEntry) :
    (syncPlanEntryStep score st e).pronunciationAttempts = st.pronunciationAttempts := by
  unfold syncPlanEntryStep
  split <;> rfl

theorem syncPlanFold_userProgress (score : Int) (entries : List DailyPlanEntry) :
    ∀ st : Store, (entries.foldl (syncPlanEntryStep score) st).userProgress = st.userProgress := by
  induction entries with
  | nil => intro st; rfl
  | cons e t ih =>
    intro st
    rw [List.foldl_cons, ih, syncPlanStep_userProgress]

theorem syncPlanFold_unitAssetProgress (score : Int) (entries : List DailyPlanEntry) :
    ∀ st : Store, (entries.foldl (syncPlanEntryStep score) st).unitAssetProgress
      = st.unitAssetProgress := by
  induction entries with
  | nil => intro st; rfl
  | cons e t ih =>
    intro st
    rw [List.foldl_cons, ih, syncPlanStep_unitAssetProgress]

theorem syncPlanFold_pron (score : Int) (entries : List DailyPlanEntry) :
    ∀ st : Store, (entries.foldl (syncPlanEntryStep score) st).pronunciationAttempts
      = st.pronunciationAttempts := by
  induction entries with
  | nil => intro st; rfl
  | cons e t ih =>
    intro st
    rw [List.foldl_cons, ih, syncPlanStep_pron]

theorem findAssetProgress_updateRow_other (s : Store) (userId assetId assetId' : String)
    (row : UnitAssetProgress) (hrow : row.assetId = assetId) (hne : assetId ≠ assetId') :
    findAssetProgress (updateAssetProgressRow s userId assetId row) userId assetId'
      = findAssetProgress s userId assetId' := by
  apply find?_mapReplace_other
  · have : (row.assetId == assetId') = false := by
      rw [beq_eq_false_iff_ne, hrow]
      exact hne
    simp [this]
  · intro r hr
    rw [Bool.and_eq_true] at hr
    have h2 : r.assetId = assetId := by simpa using hr.2
    have : (r.assetId == assetId') = false := by
      rw [beq_eq_false_iff_ne, h2]
      exact hne
    simp [this]

theorem findAssetProgress_append (s : Store) (userId assetId : String)
    (row : UnitAssetProgress) :
    findAssetProgress { s with unitAssetProgress := s.unitAssetProgress ++ [row] }
        userId assetId
      = (findAssetProgress s userId assetId).or
          (if row.userId == userId && row.assetId == assetId then some row else none) := by
  show (s.unitAssetProgress ++ [row]).find?
        (fun r => r.userId == userId && r.assetId == assetId)
      = (s.unitAssetProgress.find? (fun r => r.userId == userId && r.assetId == assetId)).or
          (if row.userId == userId && row.assetId == assetId then some row else none)
  rw [List.find?_append]
  cases hq : row.userId == userId && row.assetId == assetId with
  | true => simp [List.find?_cons, hq]
  | false => simp [List.find?_cons, hq]

theorem forceCompleteAsset_find_other (now : Nat) (userId unitId : String)
    (st : Store) (a : UnitAsset) (assetId' : String) (hne : a.id ≠ assetId') :
    findAssetProgress (forceCompleteAsset now userId unitId st a) userId assetId'
      = findAssetProgress st userId assetId' := by
  unfold forceCompleteAsset
  cases hex : findAssetProgress st userId a.id with
  | some ex =>
    have hexid : ex.assetId = a.id := by
      have := List.find?_some hex
      rw [Bool.and_eq_true] at this
      simpa using this.2
    simp only []
    split
    · exact findAssetProgress_updateRow_other st userId a.id assetId' _ hexid hne
    · rfl
  | none =>
    simp only []
    rw [findAssetProgress_append]
    have hb : ((a.id : String) == assetId') = false := by
      rw [beq_eq_false_iff_ne]
      exact hne
    simp [hb]

theorem forceCompleteAsset_wf (now : Nat) (userId unitId : String) (st : Store)
    (a : UnitAsset) (h : storePctInRange st) :
    storePctInRange (forceCompleteAsset now userId unitId st a) := by
  unfold forceCompleteAsset
  cases hex : findAssetProgress st userId a.id with
  | some ex =>
    simp only []
    split
    · intro r hr
      unfold updateAssetProgressRow at hr
      simp only [List.mem_map] at hr
      obtain ⟨r0, hr0, hr0eq⟩ := hr
      by_cases hk : (r0.userId == userId && r0.assetId == a.id) = true
      · rw [if_pos hk] at hr0eq
        rw [← hr0eq]
        exact ⟨by norm_num, by norm_num⟩
      · rw [if_neg hk] at hr0eq
        rw [← hr0eq]
        exact h r0 hr0
    · exact h
  | none =>
    simp only []
    intro r hr
    simp only [List.mem_append, List.mem_singleton] at hr
    cases hr with
    | inl hr => exact h r hr
    | inr hr =>
      rw [hr]
      exact ⟨by norm_num, by norm_num⟩

theorem forceCompleteAsset_establishes (now : Nat) (userId unitId : String)
    (st s0 : Store) (a : UnitAsset)
    (hagree : findAssetProgress st userId a.id = findAssetProgress s0 userId a.id)
    (hwf : storePctInRange st) :
    assetForceFilled s0 (forceCompleteAsset now userId unitId st a) now userId a := by
  unfold forceCompleteAsset
  cases hex : findAssetProgress st userId a.id with
  | some ex =>
    have hkey := List.find?_some hex
    have hs0 : findAssetProgress s0 userId a.id = some ex := hagree ▸ hex
    simp only []
    split
    next hcond =>
      refine ⟨{ ex with
          completed := true
          progressPercentage := 100
          secondsWatched := ex.secondsWatched
          durationSeconds := (match ex.durationSeconds <|> a.duration with
            | some v => some v
            | none => ex.durationSeconds)
          completedAt := some (ex.completedAt.getD now) },
        ?_, rfl, rfl, ⟨ex.completedAt.getD now, rfl⟩, ?_, ?_⟩
      · rw [findAssetProgress_updateRow st userId a.id _ (by exact hkey), hex]
        rfl
      · intro h0
        rw [hs0] at h0
        exact absurd h0 (by simp)
      · intro ex' t hex' ht
        rw [hs0] at hex'
        injection hex' with hex'
        subst hex'
        show some (ex.completedAt.getD now) = some t
        rw [ht]
        rfl
    next hcond =>
      push_neg at hcond
      obtain ⟨h1, h2, h3⟩ := hcond
      obtain ⟨t0, ht0⟩ := Option.ne_none_iff_exists'.1 h3
      refine ⟨ex, hex, ?_, h1, ⟨t0, ht0⟩, ?_, ?_⟩
      · exact le_antisymm (hwf ex (List.mem_of_find?_eq_some hex)).2 h2
      · intro h0
        rw [hs0] at h0
        exact absurd h0 (by simp)
      · intro ex' t hex' ht
        rw [hs0] at hex'
        injection hex' with hex'
        subst hex'
        exact ht
  | none =>
    have hs0 : findAssetProgress s0 userId a.id = none := hagree ▸ hex
    simp only []
    refine ⟨{ userId := userId
              unitId := unitId
              assetId := a.id
              progressPercentage := 100
              secondsWatched := a.duration.getD 0
              durationSeconds := a.duration
              completed := true
              completedAt := some now },
      ?_, rfl, rfl, ⟨now, rfl⟩, fun _ => ⟨rfl, rfl⟩, ?_⟩
    · rw [findAssetProgress_append, hex]
      simp
    · intro ex' t hex' ht
      rw [hs0] at hex'
      exact absurd hex' (by simp)

theorem assetForceFilled_step (s0 st : Store) (now : Nat) (userId unitId : String)
    (a b : UnitAsset) (hpost : assetForceFilled s0 st now userId a) :
    assetForceFilled s0 (forceCompleteAsset now userId unitId st b) now userId a := by
  obtain ⟨row, hfind, hpct, hcomp, ⟨t0, ht0⟩, h4, h5⟩ := hpost
  by_cases hid : b.id = a.id
  · unfold forceCompleteAsset
    have hnc : ¬(¬row.completed = true ∨ row.progressPercentage < 100
        ∨ row.completedAt = none) := by
      simp [hcomp, hpct, ht0]
    simp only [hid, hfind, if_neg hnc]
    exact ⟨row, hfind, hpct, hcomp, ⟨t0, ht0⟩, h4, h5⟩
  · refine ⟨row, ?_, hpct, hcomp, ⟨t0, ht0⟩, h4, h5⟩
    rw [forceCompleteAsset_find_other now userId unitId st b a.id hid]
    exact hfind

theorem assetForceFilled_fold (s0 : Store) (now : Nat) (userId unitId : String)
    (a : UnitAsset) (bs : List UnitAsset) : ∀ st : Store,
    assetForceFilled s0 st now userId a →
    assetForceFilled s0 (bs.foldl (forceCompleteAsset now userId unitId) st) now userId a := by
  induction bs with
  | nil => exact fun st h => h
  | cons b t ih =>
    intro st h
    rw [List.foldl_cons]
    exact ih _ (assetForceFilled_step s0 st now userId unitId a b h)

theorem forceFill_wf (now : Nat) (userId unitId : String) (assets : List UnitAsset) :
    ∀ st : Store, storePctInRange st →
    storePctInRange (assets.foldl (forceCompleteAsset now userId unitId) st) := by
  induction assets with
  | nil => exact fun st h => h
  | cons a t ih =>
    intro st h
    rw [List.foldl_cons]
    exact ih _ (forceCompleteAsset_wf now userId unitId st a h)

theorem forceFill_posts (now : Nat) (userId unitId : String) (assets : List UnitAsset)
    (s0 : Store) : ∀ st : Store,
    ((assets.map (fun a => a.id)).Nodup) →
    (∀ a ∈ assets, findAssetProgress st userId a.id = findAssetProgress s0 userId a.id) →
    storePctInRange st →
    ∀ a ∈ assets,
      assetForceFilled s0 (assets.foldl (forceCompleteAsset now userId unitId) st)
        now userId a := by
  induction assets with
  | nil =>
    intro st _ _ _ a ha
    exact absurd ha (by simp)
  | cons a t ih =>
    intro st hnodup hagree hwf b hb
    rw [List.map_cons, List.nodup_cons] at hnodup
    obtain ⟨hna, hnt⟩ := hnodup
    rw [List.foldl_cons]
    rcases List.mem_cons.1 hb with hba | hbt
    · subst hba
      exact assetForceFilled_fold s0 now userId unitId b t _
        (forceCompleteAsset_establishes now userId unitId st s0 b
          (hagree b (List.mem_cons_self b t)) hwf)
    · apply ih _ hnt ?_ (forceCompleteAsset_wf now userId unitId st a hwf) b hbt
      intro c hc
      have hne : a.id ≠ c.id := by
        intro hEq
        exact hna (hEq ▸ List.mem_map_of_mem (fun x => x.id) hc)
      rw [forceCompleteAsset_find_other now userId unitId st a c.id hne]
      exact hagree c (List.mem_cons_of_mem a hc)

theorem completeUnit_find_row (now : Nat) (cat : Catalog) (userId unitId : String)
    (s : Store) :
    findUserProgress ((cat.unitAssets unitId).foldl (forceCompleteAsset now userId unitId)
        ((startUnit now userId unitId s).1)) userId unitId
      = some ((startUnit now userId unitId s).2) :=
  (findUserProgress_congr ((startUnit now userId unitId s).1) _
    (forceFill_userProgress now userId unitId (cat.unitAssets unitId)
      ((startUnit now userId unitId s).1)) userId unitId).trans
    (startUnit_find now userId unitId s)

theorem calculateUnitScore_bounds_aux (cat : Catalog) (userId unitId : String) (s : Store)
    (hAtt : ∀ a ∈ s.pronunciationAttempts, 0 ≤ a.score ∧ a.score ≤ 100) :
    0 ≤ calculateUnitScore cat userId unitId s
      ∧ calculateUnitScore cat userId unitId s ≤ 100 := by
  by_cases h0 : (unitScoreComponents cat userId unitId s).length = 0
  · unfold calculateUnitScore
    rw [if_pos h0]
    norm_num
  · have havg := list_avg_bounds (unitScoreComponents cat userId unitId s)
      (Nat.pos_of_ne_zero h0) (unitScoreComponents_bounds cat userId unitId s hAtt)
    unfold calculateUnitScore
    rw [if_neg h0]
    exact ⟨jsRound_nonneg _ havg.1, jsRound_le_100 _ havg.2⟩

theorem jsRound_clamp_int (n : Int) (h0 : 0 ≤ n) (h1 : n ≤ 100) :
    jsRound (min (max ((n : Int) : Rat) 0) 100) = n := by
  rw [max_eq_left (by exact_mod_cast h0), min_eq_left (by exact_mod_cast h1), jsRound_intCast]

theorem calculateUnitScore_congr (cat : Catalog) (userId unitId : String) (s s' : Store)
    (h1 : s'.unitAssetProgress = s.unitAssetProgress)
    (h2 : s'.pronunciationAttempts = s.pronunciationAttempts) :
    calculateUnitScore cat userId unitId s' = calculateUnitScore cat userId unitId s := by
  unfold calculateUnitScore unitScoreComponents assetProgressFor attemptsFor
  rw [h1, h2]

theorem assetForceFilled_congr (s0 sA sB : Store) (now : Nat) (userId : String)
    (a : UnitAsset) (h : sB.unitAssetProgress = sA.unitAssetProgress)
    (hp : assetForceFilled s0 sA now userId a) :
    assetForceFilled s0 sB now userId a := by
  obtain ⟨row, hfind, h1, h2, h3, h4, h5⟩ := hp
  exact ⟨row, (findAssetProgress_congr sA sB h userId a.id).trans hfind, h1, h2, h3, h4, h5⟩

theorem findUserProgress_update_completedRow (s2 : Store) (userId unitId : String)
    (r1 : UserProgress) (score : Int) (now : Nat)
    (hfind : findUserProgress s2 userId unitId = some r1) :
    findUserProgress (updateUserProgressRow s2 userId unitId
        { r1 with completed := true, completedAt := some now, score := score })
        userId unitId
      = some { r1 with completed := true, completedAt := some now, score := score } := by
  have hkey := List.find?_some hfind
  rw [findUserProgress_updateRow s2 userId unitId
    { r1 with completed := true, completedAt := some now, score := score } (by exact hkey), hfind]
  rfl

/-- C2 (amended): after `completeUnit(learnerId, unitId, finalScoreOverride?)`
returns, every catalog asset of the unit has an AssetProgress row with
`progressPercentage = 100` and `completed = true` — created with
`secondsWatched` defaulted to the catalog duration (or 0) and
`completedAt = now` when no row existed, and preserving an already-set
`completedAt` when a row existed — and the UnitProgress row has
`completed = true`, score equal to the clamped/rounded override when one is
supplied and otherwise `calculateUnitScore`'s result, and `completedAt`
overwritten to `now` unconditionally (also when it was already set). -/
theorem completeUnit_post (now : Nat) (cat : Catalog) (userId unitId : String)
    (fs : Option Rat) (s : Store) (res : Store × UserProgress × Bool)
    (hnodup : ((cat.unitAssets unitId).map (fun a => a.id)).Nodup)
    (hwf : storePctInRange s)
    (hAtt : ∀ a ∈ s.pronunciationAttempts, 0 ≤ a.score ∧ a.score ≤ 100)
    (hres : completeUnit now cat userId unitId fs s = some res) :
    (∀ a ∈ cat.unitAssets unitId, assetForceFilled s res.1 now userId a)
    ∧ findUserProgress res.1 userId unitId = some res.2.1
    ∧ res.2.1.completed = true
    ∧ res.2.1.completedAt = some now
    ∧ (∀ v, fs = some v → res.2.1.score = jsRound (min (max v 0) 100))
    ∧ (fs = none → res.2.1.score = calculateUnitScore cat userId unitId res.1) := by
  have hfind2 := completeUnit_find_row now cat userId unitId s
  have hposts := forceFill_posts now userId unitId (cat.unitAssets unitId) s
    ((startUnit now userId unitId s).1) hnodup
    (fun a _ => findAssetProgress_congr s ((startUnit now userId unitId s).1)
      (startUnit_unitAssetProgress now userId unitId s) userId a.id)
    (fun r hr => hwf r (by rwa [startUnit_unitAssetProgress] at hr))
  have hPA2 : ((cat.unitAssets unitId).foldl (forceCompleteAsset now userId unitId)
        ((startUnit now userId unitId s).1)).pronunciationAttempts
      = s.pronunciationAttempts :=
    (forceFill_pron now userId unitId (cat.unitAssets unitId)
      ((startUnit now userId unitId s).1)).trans
      (startUnit_pronunciationAttempts now userId unitId s)
  unfold completeUnit at hres
  simp only [hfind2] at hres
  injection hres with hres
  subst hres
  refine ⟨?_, ?_, rfl, rfl, ?_, ?_⟩
  · intro a ha
    refine assetForceFilled_congr s _ _ now userId a ?_ (hposts a ha)
    exact syncPlanFold_unitAssetProgress _ _ _
  · rw [findUserProgress_congr _ _ (syncPlanFold_userProgress _ _ _) userId unitId]
    exact findUserProgress_update_completedRow _ userId unitId _ _ now hfind2
  · intro v hv
    subst hv
    rfl
  · intro hv
    subst hv
    have hAtt2 : ∀ a ∈ ((cat.unitAssets unitId).foldl (forceCompleteAsset now userId unitId)
        ((startUnit now userId unitId s).1)).pronunciationAttempts,
        0 ≤ a.score ∧ a.score ≤ 100 := fun a ha => hAtt a (hPA2 ▸ ha)
    have hb := calculateUnitScore_bounds_aux cat userId unitId
      ((cat.unitAssets unitId).foldl (forceCompleteAsset now userId unitId)
        ((startUnit now userId unitId s).1)) hAtt2
    have hclamp := jsRound_clamp_int
      (calculateUnitScore cat userId unitId
        ((cat.unitAssets unitId).foldl (forceCompleteAsset now userId unitId)
          ((startUnit now userId unitId s).1))) hb.1 hb.2
    show jsRound _ = _
    rw [hclamp]
    refine (calculateUnitScore_congr cat userId unitId _ _ ?_ ?_).symm
    · exact syncPlanFold_unitAssetProgress _ _ _
    · exact syncPlanFold_pron _ _ _

/-- Counterexample for C2 as stated: on a unit whose progress row already has
`completedAt = some 5`, re-running `completeUnit` at instant 7 persists
`completedAt = some 7` — the code sets `completedAt: now` unconditionally, not
only when it was unset. -/
theorem completeUnit_resets_completedAt :
    (completeUnit 7 emptyCatalog "u" "unit" none cexStore).map (fun r => r.2.1.completedAt)
      = some (some 7)
    ∧ findUserProgress cexStore "u" "unit" = some cexUnitRow
    ∧ cexUnitRow.completedAt = some 5
    ∧ some (5 : Nat) ≠ some 7 := by
  refine ⟨rfl, rfl, rfl, by decide⟩

/-- Witness for C2's amended theorem: completing a started unit with override
95 at instant 9 stores a completed row with `completedAt = some 9` and the
clamped/rounded override as score. -/
theorem completeUnit_post_w :
    findUserProgress
        ({ userProgress := [{ userId := "u", unitId := "unit", completed := true,
                              score := jsRound (min (max 95 0) 100), startedAt := some 3,
                              completedAt := some 9 }],
           unitAssetProgress := [],
           pronunciationAttempts := [],
           dailyPlanEntries := [] } : Store) "u" "unit"
      = some { userId := "u", unitId := "unit", completed := true,
               score := jsRound (min (max 95 0) 100), startedAt := some 3,
               completedAt := some 9 }
    ∧ ({ userId := "u", unitId := "unit", completed := true,
         score := jsRound (min (max 95 0) 100), startedAt := some 3,
         completedAt := some 9 } : UserProgress).completedAt = some 9
    ∧ ({ userId := "u", unitId := "unit", completed := true,
         score := jsRound (min (max 95 0) 100), startedAt := some 3,
         completedAt := some 9 } : UserProgress).score = jsRound (min (max 95 0) 100) := by
  have h := completeUnit_post 9 emptyCatalog "u" "unit" (some 95) startedStore
    ({ userProgress := [{ userId := "u", unitId := "unit", completed := true,
                          score := jsRound (min (max 95 0) 100), startedAt := some 3,
                          completedAt := some 9 }],
       unitAssetProgress := [],
       pronunciationAttempts := [],
       dailyPlanEntries := [] },
     { userId := "u", unitId := "unit", completed := true,
       score := jsRound (min (max 95 0) 100), startedAt := some 3,
       completedAt := some 9 }, false)
    (by decide) (fun r hr => absurd hr (by simp [startedStore]))
    (fun a ha => absurd ha (by simp [startedStore])) rfl
  exact ⟨h.2.1, h.2.2.2.1, h.2.2.2.2.1 95 rfl⟩

theorem syncPlanStep_entries (score : Int) (st : Store) (e : DailyPlanEntry) :
    (syncPlanEntryStep score st e).dailyPlanEntries
      = (if ¬e.completed = true ∨ e.score ≠ score then
          st.dailyPlanEntries.map (fun r =>
            if r.id == e.id then { r with completed := true, score := score } else r)
        else st.dailyPlanEntries) := by
  unfold syncPlanEntryStep
  split
  next h => rfl
  next h => rfl

theorem planFold_generic (score : Int) (todo : List DailyPlanEntry) : ∀ st : Store,
    (∀ e ∈ todo, ∀ r ∈ st.dailyPlanEntries, r.id = e.id → r = e) →
    ((todo.map (fun e => e.id)).Nodup) →
    (todo.foldl (syncPlanEntryStep score) st).dailyPlanEntries
      = st.dailyPlanEntries.map (fun r =>
          if ∃ e ∈ todo, e.id = r.id ∧ (¬e.completed = true ∨ e.score ≠ score)
          then { r with completed := true, score := score } else r) := by
  induction todo with
  | nil =>
    intro st _ _
    simp
  | cons e t ih =>
    intro st hinj hnodup
    rw [List.map_cons, List.nodup_cons] at hnodup
    obtain ⟨hne, hnt⟩ := hnodup
    have hinj' : ∀ e' ∈ t, ∀ r' ∈ (syncPlanEntryStep score st e).dailyPlanEntries,
        r'.id = e'.id → r' = e' := by
      intro e' he' r' hr' hid'
      rw [syncPlanStep_entries] at hr'
      split at hr'
      · rw [List.mem_map] at hr'
        obtain ⟨r0, hr0, hr0eq⟩ := hr'
        by_cases hk : (r0.id == e.id) = true
        · exfalso
          rw [if_pos hk] at hr0eq
          apply hne
          have h1 : r0.id = e.id := by simpa using hk
          have h2 : r'.id = r0.id := by rw [← hr0eq]
          rw [show e.id = e'.id from by rw [← h1, ← h2, hid']]
          exact List.mem_map_of_mem (fun x => x.id) he'
        · rw [if_neg hk] at hr0eq
          subst hr0eq
          exact hinj e' (List.mem_cons_of_mem e he') r0 hr0 hid'
      · exact hinj e' (List.mem_cons_of_mem e he') r' hr' hid'
    rw [List.foldl_cons, ih (syncPlanEntryStep score st e) hinj' hnt, syncPlanStep_entries]
    by_cases hcond : (¬e.completed = true ∨ e.score ≠ score)
    · rw [if_pos hcond, List.map_map]
      apply List.map_congr_left
      intro r hr
      simp only [Function.comp_apply]
      by_cases hid : r.id = e.id
      · have hre : r = e := hinj e (List.mem_cons_self e t) r hr hid
        have hbid : (r.id == e.id) = true := by simpa using hid
        rw [if_pos hbid]
        have hnot : ¬ ∃ e' ∈ t,
            e'.id = ({ r with completed := true, score := score } : DailyPlanEntry).id
            ∧ (¬e'.completed = true ∨ e'.score ≠ score) := by
          rintro ⟨e', he', hid2, _⟩
          apply hne
          have h3 : e.id = e'.id := by
            rw [← hid]
            exact hid2.symm
          rw [h3]
          exact List.mem_map_of_mem (fun x => x.id) he'
        rw [if_neg hnot]
        have hyes : ∃ e' ∈ e :: t, e'.id = r.id ∧ (¬e'.completed = true ∨ e'.score ≠ score) :=
          ⟨e, List.mem_cons_self e t, hid.symm, hcond⟩
        rw [if_pos hyes]
      · have hbid : ¬ (r.id == e.id) = true := by
          simp [beq_iff_eq]
          exact hid
        rw [if_neg hbid]
        by_cases hex : ∃ e' ∈ t, e'.id = r.id ∧ (¬e'.completed = true ∨ e'.score ≠ score)
        · obtain ⟨e', he', h1, h2⟩ := hex
          rw [if_pos ⟨e', he', h1, h2⟩, if_pos ⟨e', List.mem_cons_of_mem e he', h1, h2⟩]
        · rw [if_neg hex, if_neg ?_]
          rintro ⟨e', he', h1, h2⟩
          rcases List.mem_cons.1 he' with hhe | hte
          · subst hhe
            exact hid h1.symm
          · exact hex ⟨e', hte, h1, h2⟩
    · rw [if_neg hcond]
      apply List.map_congr_left
      intro r hr
      by_cases hex : ∃ e' ∈ t, e'.id = r.id ∧ (¬e'.completed = true ∨ e'.score ≠ score)
      · obtain ⟨e', he', h1, h2⟩ := hex
        rw [if_pos ⟨e', he', h1, h2⟩, if_pos ⟨e', List.mem_cons_of_mem e he', h1, h2⟩]
      · rw [if_neg hex, if_neg ?_]
        rintro ⟨e', he', h1, h2⟩
        rcases List.mem_cons.1 he' with hhe | hte
        · subst hhe
          exact hcond h2
        · exact hex ⟨e', hte, h1, h2⟩

theorem planFold_filter (score : Int) (p : DailyPlanEntry → Bool) (st : Store)
    (hids : (st.dailyPlanEntries.map (fun e => e.id)).Nodup) :
    ((st.dailyPlanEntries.filter p).foldl (syncPlanEntryStep score) st).dailyPlanEntries
      = st.dailyPlanEntries.map (fun r =>
          if p r = true ∧ (¬r.completed = true ∨ r.score ≠ score)
          then { r with completed := true, score := score } else r) := by
  have hinj : ∀ e ∈ st.dailyPlanEntries.filter p, ∀ r ∈ st.dailyPlanEntries,
      r.id = e.id → r = e := by
    intro e he r hr hid
    exact List.inj_on_of_nodup_map hids hr (List.mem_of_mem_filter he) hid
  have hnd : ((st.dailyPlanEntries.filter p).map (fun e => e.id)).Nodup :=
    hids.sublist ((List.filter_sublist st.dailyPlanEntries).map (fun e => e.id))
  rw [planFold_generic score (st.dailyPlanEntries.filter p) st hinj hnd]
  apply List.map_congr_left
  intro r hr
  by_cases hex : ∃ e ∈ st.dailyPlanEntries.filter p,
      e.id = r.id ∧ (¬e.completed = true ∨ e.score ≠ score)
  · obtain ⟨e, he, hid, hc⟩ := hex
    have hre : r = e :=
      List.inj_on_of_nodup_map hids hr (List.mem_of_mem_filter he) hid.symm
    have hp : p r = true := by
      rw [hre]
      exact (List.mem_filter.1 he).2
    have hcr : ¬r.completed = true ∨ r.score ≠ score := by
      rw [hre]
      exact hc
    rw [if_pos ⟨e, he, hid, hc⟩, if_pos ⟨hp, hcr⟩]
  · rw [if_neg hex, if_neg ?_]
    rintro ⟨hp, hc⟩
    exact hex ⟨r, List.mem_filter.2 ⟨hr, hp⟩, rfl, hc⟩

theorem completeUnit_plan_sync_aux (score : Int) (userId unitId : String) (s ST : Store)
    (hD : ST.dailyPlanEntries = s.dailyPlanEntries)
    (hids : (s.dailyPlanEntries.map (fun e => e.id)).Nodup) :
    (∀ e ∈ ((planEntriesFor ST userId unitId).foldl (syncPlanEntryStep score) ST).dailyPlanEntries,
        (e.unitId == unitId && e.planUserId == userId) = true →
        e.completed = true ∧ e.score = score)
    ∧ (decide (0 < (planEntriesFor ST userId unitId).length) = true
        ↔ planEntriesFor s userId unitId ≠ [])
    ∧ ((planEntriesFor ST userId unitId).foldl (syncPlanEntryStep score) ST).dailyPlanEntries
      = s.dailyPlanEntries.map (fun e =>
          if (e.unitId == unitId && e.planUserId == userId) = true
              ∧ (¬e.completed = true ∨ e.score ≠ score)
          then { e with completed := true, score := score } else e) := by
  have hidsST : (ST.dailyPlanEntries.map (fun e => e.id)).Nodup := by
    rw [hD]
    exact hids
  have hc : ((planEntriesFor ST userId unitId).foldl (syncPlanEntryStep score) ST).dailyPlanEntries
      = s.dailyPlanEntries.map (fun e =>
          if (e.unitId == unitId && e.planUserId == userId) = true
              ∧ (¬e.completed = true ∨ e.score ≠ score)
          then { e with completed := true, score := score } else e) := by
    unfold planEntriesFor
    rw [planFold_filter score (fun e => e.unitId == unitId && e.planUserId == userId) ST hidsST,
      hD]
  refine ⟨?_, ?_, hc⟩
  · intro e he hmatch
    rw [hc] at he
    rw [List.mem_map] at he
    obtain ⟨e0, he0, he0eq⟩ := he
    by_cases hif : (e0.unitId == unitId && e0.planUserId == userId) = true
        ∧ (¬e0.completed = true ∨ e0.score ≠ score)
    · rw [if_pos hif] at he0eq
      rw [← he0eq]
      exact ⟨rfl, rfl⟩
    · rw [if_neg hif] at he0eq
      subst he0eq
      rcases not_and_or.1 hif with h | h
      · exact absurd hmatch h
      · push_neg at h
        exact ⟨h.1, h.2⟩
  · have : planEntriesFor ST userId unitId = planEntriesFor s userId unitId := by
      unfold planEntriesFor
      rw [hD]
    rw [this]
    simp [List.length_pos]

/-- C5: after `completeUnit` returns with determined score S, every daily-plan
entry of that learner referencing that unit has `completed = true` and
`score = S`; the returned flag is true iff at least one such entry existed
(whether or not a value changed); and the synchronization only rewrites
matching entries in place — it never creates or deletes entries and never
touches entries of other units or other learners. -/
theorem completeUnit_plan_sync (now : Nat) (cat : Catalog) (userId unitId : String)
    (fs : Option Rat) (s : Store) (res : Store × UserProgress × Bool)
    (hids : (s.dailyPlanEntries.map (fun e => e.id)).Nodup)
    (hres : completeUnit now cat userId unitId fs s = some res) :
    (∀ e ∈ res.1.dailyPlanEntries,
        (e.unitId == unitId && e.planUserId == userId) = true →
        e.completed = true ∧ e.score = res.2.1.score)
    ∧ (res.2.2 = true ↔ planEntriesFor s userId unitId ≠ [])
    ∧ res.1.dailyPlanEntries = s.dailyPlanEntries.map (fun e =>
        if (e.unitId == unitId && e.planUserId == userId) = true
            ∧ (¬e.completed = true ∨ e.score ≠ res.2.1.score)
          then { e with completed := true, score := res.2.1.score } else e) := by
  have hfind2 := completeUnit_find_row now cat userId unitId s
  have hD2 : ((cat.unitAssets unitId).foldl (forceCompleteAsset now userId unitId)
        ((startUnit now userId unitId s).1)).dailyPlanEntries = s.dailyPlanEntries :=
    (forceFill_plan now userId unitId (cat.unitAssets unitId)
      ((startUnit now userId unitId s).1)).trans
      (startUnit_dailyPlanEntries now userId unitId s)
  unfold completeUnit at hres
  simp only [hfind2] at hres
  injection hres with hres
  subst hres
  exact completeUnit_plan_sync_aux _ userId unitId s _ hD2 hids

/-- Witness for C5: completing the unit with override 92 on a store holding one
matching plan entry and one entry for another unit updates the matching entry
to completed with the determined score, reports the flag truthfully, and the
other-unit entry is untouched. -/
theorem completeUnit_plan_sync_w :
    planEntriesFor planStore "u" "unit" ≠ []
    ∧ (∀ e ∈
        ({ userProgress := [{ userId := "u", unitId := "unit", completed := true,
                              score := jsRound (min (max 92 0) 100), startedAt := some 1,
                              completedAt := some 9 }],
           unitAssetProgress := [],
           pronunciationAttempts := [],
           dailyPlanEntries := [{ id := 1, planUserId := "u", unitId := "unit",
                                  completed := true,
                                  score := jsRound (min (max 92 0) 100) },
                                { id := 2, planUserId := "u", unitId := "other",
                                  completed := false, score := 7 }] } : Store).dailyPlanEntries,
        (e.unitId == "unit" && e.planUserId == "u") = true →
        e.completed = true ∧ e.score = jsRound (min (max 92 0) 100)) := by
  have h := completeUnit_plan_sync 9 emptyCatalog "u" "unit" (some 92) planStore
    ({ userProgress := [{ userId := "u", unitId := "unit", completed := true,
                          score := jsRound (min (max 92 0) 100), startedAt := some 1,
                          completedAt := some 9 }],
       unitAssetProgress := [],
       pronunciationAttempts := [],
       dailyPlanEntries := [{ id := 1, planUserId := "u", unitId := "unit",
                              completed := true,
                              score := jsRound (min (max 92 0) 100) },
                            { id := 2, planUserId := "u", unitId := "other",
                              completed := false, score := 7 }] },
     { userId := "u", unitId := "unit", completed := true,
       score := jsRound (min (max 92 0) 100), startedAt := some 1,
       completedAt := some 9 }, true)
    (by decide) rfl
  exact ⟨h.2.1.mp rfl, h.1⟩
